import Mathlib

/-!
Verification development for the event-scraper repository.

The Python sources are shallowly embedded: pure string/loop logic is
translated function-by-function; DOM traversal primitives of BeautifulSoup
(find, find_all, the find_next walk) are represented by pre-extracted
components of page structures, and network or JSON-library calls are
oracle parameters.  Machine integers do not overflow in any modelled
path, so Nat/Int are used directly.
-/

namespace EventScraper

/-! ## Basic character and string helpers (Python semantics) -/

/-- ASCII whitespace, as Python str.strip and the regex class \s treat it. -/
def isWS (c : Char) : Bool :=
  c = ' ' || c = '\t' || c = '\n' || c = '\r' || c = '\x0b' || c = '\x0c'

/-- Python str.strip on a character list. -/
def stripL (cs : List Char) : List Char :=
  ((cs.dropWhile isWS).reverse.dropWhile isWS).reverse

/-- Python str.strip. -/
def pyStrip (s : String) : String :=
  ⟨stripL s.data⟩

/-- Does the list start with the given pattern. -/
def startsWithL : List Char → List Char → Bool
  | _, [] => true
  | [], _ :: _ => false
  | c :: cs, p :: ps => c = p && startsWithL cs ps

/-- Python substring containment: pat in hay. -/
def containsL : List Char → List Char → Bool
  | hay, pat =>
    match hay with
    | [] => startsWithL [] pat
    | _ :: rest => startsWithL hay pat || containsL rest pat

/-- Python substring containment on strings. -/
def pyContains (hay pat : String) : Bool :=
  containsL hay.data pat.data

/-- Python str.startswith. -/
def pyStartsWith (s pre : String) : Bool :=
  startsWithL s.data pre.data

/-- Python str.lower (ASCII letters only; the sources only feed ASCII names). -/
def pyLower (s : String) : String :=
  ⟨s.data.map Char.toLower⟩

/-- Remove every occurrence of one character (Python str.replace (c, "")). -/
def removeChar (c : Char) (s : String) : String :=
  ⟨s.data.filter (· ≠ c)⟩

/-- Python single-character containment c in s. -/
def hasChar (cs : List Char) (c : Char) : Bool :=
  cs.any (· = c)

def digitVal (c : Char) : Nat := c.toNat - 48

def digitChar (d : Nat) : Char := Char.ofNat (48 + d)

/-- The regex class \d restricted to ASCII (all inputs here are ASCII). -/
def isDigitC (c : Char) : Bool := 48 ≤ c.toNat && c.toNat ≤ 57

/-- Tail of a Python int literal after its first digit: digits, where
each single underscore must be followed by a digit. -/
def validIntTail : List Char → Bool
  | [] => true
  | '_' :: d :: rest => isDigitC d && validIntTail rest
  | ['_'] => false
  | d :: rest => isDigitC d && validIntTail rest

/-- Python int() on a string: optional surrounding whitespace, optional
sign, then a nonempty digit sequence where single underscores may appear
between digits. -/
def pyIntDigits : List Char → Option Nat
  | [] => none
  | c :: rest =>
    if isDigitC c && validIntTail rest then
      some (((c :: rest).filter isDigitC).foldl (fun a x => a * 10 + digitVal x) 0)
    else none

/-- Python int() on a string. -/
def pyInt (s : String) : Option Int :=
  match stripL s.data with
  | '-' :: rest => (pyIntDigits rest).map (fun n => -(n : Int))
  | '+' :: rest => (pyIntDigits rest).map (fun n => (n : Int))
  | cs => (pyIntDigits cs).map (fun n => (n : Int))

/-! ## datetime.strptime model

CPython strptime compiles each format directive to a regex:
%Y matches exactly four digits, %m matches 1[0-2]|0[1-9]|[1-9],
%d matches 3[01]|[12]\d|0[1-9]|[1-9], %H matches 2[0-3]|[0-1]\d|\d,
%M matches [0-5]\d|\d, and a space in the format matches one or more
whitespace characters.  The whole input must be consumed, and the
resulting day must exist in the month (datetime validates it).
The matchers below implement those ordered alternations; since each
directive is followed by a separator disjoint from the digit class,
regex backtracking never changes the outcome and the matchers are
deterministic. -/

def matchY : List Char → Option (Nat × List Char)
  | a :: b :: c :: d :: rest =>
    if isDigitC a && isDigitC b && isDigitC c && isDigitC d then
      some (digitVal a * 1000 + digitVal b * 100 + digitVal c * 10 + digitVal d, rest)
    else none
  | _ => none

def matchMon : List Char → Option (Nat × List Char)
  | [] => none
  | c :: rest =>
    if c.toNat = 48 then
      match rest with
      | [] => none
      | d :: rest2 => if isDigitC d && d.toNat ≠ 48 then some (digitVal d, rest2) else none
    else if c.toNat = 49 then
      match rest with
      | [] => some (1, [])
      | d :: rest2 =>
        if 48 ≤ d.toNat && d.toNat ≤ 50 then some (10 + digitVal d, rest2)
        else some (1, d :: rest2)
    else if 50 ≤ c.toNat && c.toNat ≤ 57 then some (digitVal c, rest)
    else none

def matchDay : List Char → Option (Nat × List Char)
  | [] => none
  | c :: rest =>
    if c.toNat = 51 then
      match rest with
      | [] => some (3, [])
      | d :: rest2 =>
        if d.toNat = 48 || d.toNat = 49 then some (30 + digitVal d, rest2)
        else some (3, d :: rest2)
    else if c.toNat = 49 || c.toNat = 50 then
      match rest with
      | [] => some (digitVal c, [])
      | d :: rest2 =>
        if isDigitC d then some (10 * digitVal c + digitVal d, rest2)
        else some (digitVal c, d :: rest2)
    else if c.toNat = 48 then
      match rest with
      | [] => none
      | d :: rest2 => if isDigitC d && d.toNat ≠ 48 then some (digitVal d, rest2) else none
    else if 52 ≤ c.toNat && c.toNat ≤ 57 then some (digitVal c, rest)
    else none

def matchHour : List Char → Option (Nat × List Char)
  | [] => none
  | c :: rest =>
    if c.toNat = 50 then
      match rest with
      | [] => some (2, [])
      | d :: rest2 =>
        if 48 ≤ d.toNat && d.toNat ≤ 51 then some (20 + digitVal d, rest2)
        else some (2, d :: rest2)
    else if c.toNat = 48 || c.toNat = 49 then
      match rest with
      | [] => some (digitVal c, [])
      | d :: rest2 =>
        if isDigitC d then some (10 * digitVal c + digitVal d, rest2)
        else some (digitVal c, d :: rest2)
    else if isDigitC c then some (digitVal c, rest)
    else none

def matchMin : List Char → Option (Nat × List Char)
  | [] => none
  | c :: rest =>
    if 48 ≤ c.toNat && c.toNat ≤ 53 then
      match rest with
      | [] => some (digitVal c, [])
      | d :: rest2 =>
        if isDigitC d then some (10 * digitVal c + digitVal d, rest2)
        else some (digitVal c, d :: rest2)
    else if isDigitC c then some (digitVal c, rest)
    else none

def matchLit (x : Char) : List Char → Option (List Char)
  | [] => none
  | c :: rest => if c = x then some rest else none

/-- One or more whitespace characters (a space in a strptime format). -/
def matchWS : List Char → Option (List Char)
  | [] => none
  | c :: rest =>
    if isWS c then some (rest.dropWhile isWS) else none

def isLeap (y : Nat) : Bool :=
  (y % 4 = 0 && y % 100 ≠ 0) || y % 400 = 0

def daysInMonth (y m : Nat) : Nat :=
  if m = 2 then (if isLeap y then 29 else 28)
  else if m = 4 || m = 6 || m = 9 || m = 11 then 30
  else 31

/-- datetime.strptime with format %Y sep %m sep %d (sep is '/' or '-'). -/
def strptimeYmd (sep : Char) (cs : List Char) : Option (Nat × Nat × Nat) :=
  match matchY cs with
  | none => none
  | some (y, r1) =>
    match matchLit sep r1 with
    | none => none
    | some r2 =>
      match matchMon r2 with
      | none => none
      | some (m, r3) =>
        match matchLit sep r3 with
        | none => none
        | some r4 =>
          match matchDay r4 with
          | none => none
          | some (d, r5) =>
            if r5 = [] ∧ 1 ≤ y ∧ d ≤ daysInMonth y m then some (y, m, d) else none

/-- datetime.strptime with format %Y sep %m sep %d %H:%M. -/
def strptimeYmdHM (sep : Char) (cs : List Char) : Option (Nat × Nat × Nat × Nat × Nat) :=
  match matchY cs with
  | none => none
  | some (y, r1) =>
    match matchLit sep r1 with
    | none => none
    | some r2 =>
      match matchMon r2 with
      | none => none
      | some (m, r3) =>
        match matchLit sep r3 with
        | none => none
        | some r4 =>
          match matchDay r4 with
          | none => none
          | some (d, r5) =>
            match matchWS r5 with
            | none => none
            | some r6 =>
              match matchHour r6 with
              | none => none
              | some (h, r7) =>
                match matchLit ':' r7 with
                | none => none
                | some r8 =>
                  match matchMin r8 with
                  | none => none
                  | some (mi, r9) =>
                    if r9 = [] ∧ 1 ≤ y ∧ d ≤ daysInMonth y m then some (y, m, d, h, mi)
                    else none

def pad2 (n : Nat) : List Char := [digitChar (n / 10 % 10), digitChar (n % 10)]

def pad4 (n : Nat) : List Char :=
  [digitChar (n / 1000 % 10), digitChar (n / 100 % 10), digitChar (n / 10 % 10),
   digitChar (n % 10)]

/-- strftime "%Y-%m-%d". -/
def strftimeD (y m d : Nat) : String :=
  ⟨pad4 y ++ '-' :: pad2 m ++ '-' :: pad2 d⟩

/-- strftime "%Y-%m-%d %H:%M". -/
def strftimeDT (y m d h mi : Nat) : String :=
  ⟨pad4 y ++ '-' :: pad2 m ++ '-' :: pad2 d ++ ' ' :: pad2 h ++ ':' :: pad2 mi⟩

/-! ## waves_fixed.validate_and_format_dates -/

/-- The inner parse_and_format_date helper of validate_and_format_dates:
recognize %Y/%m/%d [%H:%M] or %Y-%m-%d [%H:%M], reformat to
"%Y-%m-%d[ %H:%M]", otherwise return the input unchanged. -/
def parse_and_format_date (s : String) : String :=
  let cs := s.data
  if cs = [] then ""
  else if hasChar cs '/' then
    if hasChar cs ' ' then
      match strptimeYmdHM '/' cs with
      | some (y, m, d, h, mi) => strftimeDT y m d h mi
      | none => s
    else
      match strptimeYmd '/' cs with
      | some (y, m, d) => strftimeD y m d
      | none => s
  else if hasChar cs '-' then
    if hasChar cs ' ' then
      match strptimeYmdHM '-' cs with
      | some (y, m, d, h, mi) => strftimeDT y m d h mi
      | none => s
    else
      match strptimeYmd '-' cs with
      | some (y, m, d) => strftimeD y m d
      | none => s
  else s

/-- The comparison key used for the reversed-date check:
strptime(formatted.split(" ")[0], "%Y-%m-%d"), encoded as
y*10000 + m*100 + d (equal to datetime date ordering since m, d < 100). -/
def dateKey (s : String) : Option Nat :=
  match strptimeYmd '-' (s.data.takeWhile (· ≠ ' ')) with
  | some (y, m, d) => some (y * 10000 + m * 100 + d)
  | none => none

/-- The fields of an event record touched by validate_and_format_dates. -/
structure EventDates where
  name : String
  start_date : String
  end_date : String
deriving DecidableEq, Repr

/-- waves_fixed.validate_and_format_dates: reformat both dates, then swap
them when both reformatted values are nonempty and their date parts parse
with the start after the end. -/
def validate_and_format_dates (e : EventDates) : EventDates :=
  let fs := parse_and_format_date e.start_date
  let fe := parse_and_format_date e.end_date
  if fs ≠ "" && fe ≠ "" then
    match dateKey fs, dateKey fe with
    | some a, some b =>
      if a > b then { e with start_date := fe, end_date := fs }
      else { e with start_date := fs, end_date := fe }
    | _, _ => { e with start_date := fs, end_date := fe }
  else { e with start_date := fs, end_date := fe }

/-! ## discord_bot_updated.get_formatted_events (genshin branch, lines 94-99)

The branch parses both dates, swaps them for the comparison when
reversed, and keeps the event when the (swapped) end date has not
passed; dateutil parsing is an oracle parameter. -/

/-- The swap applied at formatting time in get_formatted_events. -/
def genshin_date_swap (s t : Nat) : Nat × Nat :=
  if s > t then (t, s) else (s, t)

/-- The per-event active filter of get_formatted_events (genshin branch):
events whose dates fail to parse are kept. -/
def genshin_event_active (parse : String → Option Nat) (today : Nat)
    (e : EventDates) : Bool :=
  match parse e.start_date, parse e.end_date with
  | some s, some t => decide ((genshin_date_swap s t).2 ≥ today)
  | _, _ => true

/-! ## Regex model

Each regex literal used by the sources is modelled as a deterministic
matcher List Char → Option (matched group, rest).  Every character class
in these patterns is disjoint from the class or literal that follows it,
so the greedy deterministic matchers agree with Python backtracking
semantics.  re.search scans start positions left to right; re.findall
additionally continues after each match end. -/

def isUpperC (c : Char) : Bool := 65 ≤ c.toNat && c.toNat ≤ 90

def isLowerC (c : Char) : Bool := 97 ≤ c.toNat && c.toNat ≤ 122

def isAlphaC (c : Char) : Bool := isUpperC c || isLowerC c

/-- The character class [–-] (en dash or hyphen). -/
def isDashC (c : Char) : Bool := c = '–' || c = '-'

def pChar (x : Char) : List Char → Option (List Char × List Char)
  | [] => none
  | c :: rest => if c = x then some ([c], rest) else none

def pCharP (p : Char → Bool) : List Char → Option (List Char × List Char)
  | [] => none
  | c :: rest => if p c then some ([c], rest) else none

/-- Greedy X* for a character class. -/
def pStar (p : Char → Bool) (cs : List Char) : Option (List Char × List Char) :=
  some (cs.takeWhile p, cs.dropWhile p)

/-- Greedy X+ for a character class. -/
def pPlus (p : Char → Bool) : List Char → Option (List Char × List Char)
  | [] => none
  | c :: rest =>
    if p c then some ((c :: rest).takeWhile p, (c :: rest).dropWhile p) else none

def pExact2 (p : Char → Bool) : List Char → Option (List Char × List Char)
  | a :: b :: rest => if p a && p b then some ([a, b], rest) else none
  | _ => none

def pExact4 (p : Char → Bool) : List Char → Option (List Char × List Char)
  | a :: b :: c :: d :: rest =>
    if p a && p b && p c && p d then some ([a, b, c, d], rest) else none
  | _ => none

/-- Greedy \d{1,2}. -/
def pD12 : List Char → Option (List Char × List Char)
  | [] => none
  | a :: rest =>
    if isDigitC a then
      match rest with
      | b :: rest2 => if isDigitC b then some ([a, b], rest2) else some ([a], b :: rest2)
      | [] => some ([a], [])
    else none

/-- Greedy X? for a literal character. -/
def pOpt (x : Char) : List Char → Option (List Char × List Char)
  | [] => some ([], [])
  | c :: rest => if c = x then some ([c], rest) else some ([], c :: rest)

def pSeq (a b : List Char → Option (List Char × List Char)) :
    List Char → Option (List Char × List Char) := fun cs =>
  match a cs with
  | none => none
  | some (x, r) =>
    match b r with
    | none => none
    | some (y, r2) => some (x ++ y, r2)

/-- re.search: try each start position left to right. -/
def searchFirst {α : Type} (m : List Char → Option α) : List Char → Option α
  | [] => m []
  | c :: t =>
    match m (c :: t) with
    | some r => some r
    | none => searchFirst m t

def scanAllAux (m : List Char → Option (List Char × List Char)) :
    Nat → List Char → List (List Char)
  | 0, _ => []
  | fuel + 1, cs =>
    match m cs with
    | some (g, rest) => g :: scanAllAux m fuel rest
    | none =>
      match cs with
      | [] => []
      | _ :: t => scanAllAux m fuel t

/-- re.findall: all non-overlapping matches, scanning left to right.
Every matcher here consumes at least one character, so list length
is enough fuel. -/
def findallS (m : List Char → Option (List Char × List Char)) (s : String) : List String :=
  (scanAllAux m (s.data.length + 1) s.data).map (fun g => (⟨g⟩ : String))

/-- (\d{4}-\d{2}-\d{2}\s+\d{2}:\d{2}), the data-sort-value timestamp. -/
def reTimestamp : List Char → Option (List Char × List Char) :=
  pSeq (pExact4 isDigitC) (pSeq (pChar '-') (pSeq (pExact2 isDigitC)
    (pSeq (pChar '-') (pSeq (pExact2 isDigitC) (pSeq (pPlus isWS)
      (pSeq (pExact2 isDigitC) (pSeq (pChar ':') (pExact2 isDigitC))))))))

/-- (\d{4}-\d{2}-\d{2}). -/
def reDate8 : List Char → Option (List Char × List Char) :=
  pSeq (pExact4 isDigitC) (pSeq (pChar '-') (pSeq (pExact2 isDigitC)
    (pSeq (pChar '-') (pExact2 isDigitC))))

/-- (\d{2}:\d{2}). -/
def reTimeHM : List Char → Option (List Char × List Char) :=
  pSeq (pExact2 isDigitC) (pSeq (pChar ':') (pExact2 isDigitC))

/-- \d{4}. -/
def reYear4 : List Char → Option (List Char × List Char) :=
  pExact4 isDigitC

/-- (\d[\d,]*), the quantity scanner. -/
def reQty : List Char → Option (List Char × List Char) :=
  pSeq (pCharP isDigitC) (pStar (fun c => isDigitC c || c = ','))

/-- (\d{4}/\d{2}/\d{2} \d{2}:\d{2}). -/
def reW1 : List Char → Option (List Char × List Char) :=
  pSeq (pExact4 isDigitC) (pSeq (pChar '/') (pSeq (pExact2 isDigitC)
    (pSeq (pChar '/') (pSeq (pExact2 isDigitC) (pSeq (pChar ' ') reTimeHM)))))

/-- (\d{4}-\d{2}-\d{2} \d{2}:\d{2}). -/
def reW2 : List Char → Option (List Char × List Char) :=
  pSeq (pExact4 isDigitC) (pSeq (pChar '-') (pSeq (pExact2 isDigitC)
    (pSeq (pChar '-') (pSeq (pExact2 isDigitC) (pSeq (pChar ' ') reTimeHM)))))

/-- (\d{4}/\d{2}/\d{2}). -/
def reW3 : List Char → Option (List Char × List Char) :=
  pSeq (pExact4 isDigitC) (pSeq (pChar '/') (pSeq (pExact2 isDigitC)
    (pSeq (pChar '/') (pExact2 isDigitC))))

/-- ([A-Z][a-z]+ \d{1,2}, \d{4}). -/
def reW5 : List Char → Option (List Char × List Char) :=
  pSeq (pCharP isUpperC) (pSeq (pPlus isLowerC) (pSeq (pChar ' ')
    (pSeq pD12 (pSeq (pChar ',') (pSeq (pChar ' ') (pExact4 isDigitC))))))

/-- waves extract_dates_from_text pattern list, in declaration order. -/
def waves_date_patterns : List (List Char → Option (List Char × List Char)) :=
  [reW1, reW2, reW3, reDate8, reW5]

/-- waves_final.extract_dates_from_text (identical in waves_fixed). -/
def extract_dates_from_text_waves (text : String) : List String :=
  waves_date_patterns.foldl (fun dates p => dates ++ findallS p text) []

/-- \d{1,2}/\d{1,2}/\d{4}. -/
def reG1 : List Char → Option (List Char × List Char) :=
  pSeq pD12 (pSeq (pChar '/') (pSeq pD12 (pSeq (pChar '/') (pExact4 isDigitC))))

/-- \d{4}/\d{1,2}/\d{1,2}. -/
def reG2 : List Char → Option (List Char × List Char) :=
  pSeq (pExact4 isDigitC) (pSeq (pChar '/') (pSeq pD12 (pSeq (pChar '/') pD12)))

/-- \d{1,2}/\d{1,2}/\d{2}. -/
def reG3 : List Char → Option (List Char × List Char) :=
  pSeq pD12 (pSeq (pChar '/') (pSeq pD12 (pSeq (pChar '/') (pExact2 isDigitC))))

/-- [A-Z][a-z]+ \d{1,2},? \d{4}. -/
def reG4 : List Char → Option (List Char × List Char) :=
  pSeq (pCharP isUpperC) (pSeq (pPlus isLowerC) (pSeq (pChar ' ')
    (pSeq pD12 (pSeq (pOpt ',') (pSeq (pChar ' ') (pExact4 isDigitC))))))

/-- \d{1,2} [A-Z][a-z]+ \d{4}. -/
def reG5 : List Char → Option (List Char × List Char) :=
  pSeq pD12 (pSeq (pChar ' ') (pSeq (pCharP isUpperC) (pSeq (pPlus isLowerC)
    (pSeq (pChar ' ') (pExact4 isDigitC)))))

/-- genshin extract_dates_from_text pattern list, in declaration order. -/
def genshin_date_patterns : List (List Char → Option (List Char × List Char)) :=
  [reG1, reG2, reG3, reG4, reG5]

/-- genshin_final.extract_dates_from_text. -/
def extract_dates_from_text_genshin (text : String) : List String :=
  genshin_date_patterns.foldl (fun dates p => dates ++ findallS p text) []

/-! ## waves_fixed.extract_dates_from_duration_cell -/

/-- One side of pattern1: [A-Za-z]+\s+\d{1,2},\s+\d{4}. -/
def reP1side : List Char → Option (List Char × List Char) :=
  pSeq (pPlus isAlphaC) (pSeq (pPlus isWS) (pSeq pD12
    (pSeq (pChar ',') (pSeq (pPlus isWS) (pExact4 isDigitC)))))

/-- The separator \s*[–-]\s* between the two groups. -/
def reDashMid : List Char → Option (List Char × List Char) :=
  pSeq (pStar isWS) (pSeq (pCharP isDashC) (pStar isWS))

/-- Group1 of pattern2: [A-Za-z]+\s+\d{1,2}. -/
def reP2side : List Char → Option (List Char × List Char) :=
  pSeq (pPlus isAlphaC) (pSeq (pPlus isWS) pD12)

/-- Pattern1 ([A-Za-z]+\s+\d{1,2},\s+\d{4})\s*[–-]\s*(same), both groups. -/
def reP1 (cs : List Char) : Option (List Char × List Char × List Char) :=
  match reP1side cs with
  | none => none
  | some (g1, r1) =>
    match reDashMid r1 with
    | none => none
    | some (_, r2) =>
      match reP1side r2 with
      | none => none
      | some (g2, r3) => some (g1, g2, r3)

/-- Pattern2 ([A-Za-z]+\s+\d{1,2})\s*[–-]\s*([A-Za-z]+\s+\d{1,2},\s+\d{4}). -/
def reP2 (cs : List Char) : Option (List Char × List Char × List Char) :=
  match reP2side cs with
  | none => none
  | some (g1, r1) =>
    match reDashMid r1 with
    | none => none
    | some (_, r2) =>
      match reP1side r2 with
      | none => none
      | some (g2, r3) => some (g1, g2, r3)

/-- A duration table cell: its optional data-sort-value attribute and its
visible text (get_text()). -/
structure DurationCell where
  dataSortValue : Option String
  text : String

def hyphenCount (s : String) : Nat := s.data.countP (· = '-')

/-- The visible-text branch of extract_dates_from_duration_cell:
pattern1 (full range), then pattern2 (start side without a year, which
inherits the first four-digit year found in the text). -/
def duration_text_fallback (cellText : String) : Option String × Option String :=
  let dt := stripL cellText.data
  match searchFirst reP1 dt with
  | some (g1, g2, _) => (some (⟨g1⟩ : String), some (⟨g2⟩ : String))
  | none =>
    match searchFirst reP2 dt with
    | some (g1, g2, _) =>
      match searchFirst reYear4 dt with
      | some (yr, _) => (some (⟨g1 ++ ',' :: ' ' :: yr⟩ : String), some (⟨g2⟩ : String))
      | none => (none, none)
    | none => (none, none)

/-- waves_fixed.extract_dates_from_duration_cell, returning
(start_date, end_date). -/
def extract_dates_from_duration_cell (cell : DurationCell) :
    Option String × Option String :=
  match cell.dataSortValue with
  | none => (none, none)
  | some v =>
    if v.length ≥ 32 ∧ hyphenCount v ≥ 4 then
      match findallS reTimestamp v with
      | d0 :: d1 :: _ => (some d1, some d0)
      | [_] =>
        if v.length ≥ 32 then
          let middle := v.length / 2
          let firstHalf := v.data.take middle
          let secondHalf := v.data.drop middle
          match searchFirst reDate8 firstHalf, searchFirst reDate8 secondHalf with
          | some (eD, _), some (sD, _) =>
            let eD2 := match searchFirst reTimeHM firstHalf with
              | some (t, _) => eD ++ ' ' :: t
              | none => eD
            let sD2 := match searchFirst reTimeHM secondHalf with
              | some (t, _) => sD ++ ' ' :: t
              | none => sD
            (some (⟨sD2⟩ : String), some (⟨eD2⟩ : String))
          | _, _ => (none, none)
        else (none, none)
      | [] => (none, none)
    else duration_text_fallback cell.text

/-! ## Python dict model (insertion ordered association list) -/

def dictGet {α : Type} (d : List (String × α)) (k : String) : Option α :=
  (d.find? (fun p => p.1 = k)).map (·.2)

def dictSet {α : Type} : List (String × α) → String → α → List (String × α)
  | [], k, v => [(k, v)]
  | (k0, v0) :: rest, k, v =>
    if k0 = k then (k0, v) :: rest else (k0, v0) :: dictSet rest k v

def dictContains {α : Type} (d : List (String × α)) (k : String) : Bool :=
  (dictGet d k).isSome

/-! ## genshin_final.scrape_rewards Method 1 (card-list-container branch) -/

/-- The link inside a reward card: title attribute, src of its first img
(none when there is no img), and href attribute. -/
structure GCardLink where
  title : String
  imgSrc : Option String
  href : String
deriving DecidableEq, Repr

/-- A card-container widget: its first link and its spans
(class list, text). -/
structure GCard where
  link : Option GCardLink
  spans : List (List String × String)
deriving DecidableEq, Repr

/-- Item-name resolution: title attribute, then primogem icon recognition
by img src, then by href; None when the card has no link, "" when all
fallbacks fail (both are falsy downstream). -/
def gcard_item_name (c : GCard) : Option String :=
  match c.link with
  | none => none
  | some l =>
    if l.title ≠ "" then some l.title
    else
      match l.imgSrc with
      | some src =>
        if pyContains (pyLower src) "primogem" then some "Primogem"
        else if pyContains (pyLower l.href) "primogem" then some "Primogem"
        else some ""
      | none =>
        if pyContains (pyLower l.href) "primogem" then some "Primogem"
        else some ""

/-- First span whose class list contains card-text. -/
def gcard_qspan (c : GCard) : Option String :=
  (c.spans.find? (fun sp => sp.1.contains "card-text")).map (·.2)

/-- The (name, quantity) contributed by one card, none when the card is
rejected (no usable name, no quantity span, empty quantity text, or a
quantity that does not parse as an integer after comma removal). -/
def gcard_entry (c : GCard) : Option (String × Int) :=
  match gcard_item_name c, gcard_qspan c with
  | some n, some t =>
    if n ≠ "" then
      let qt := pyStrip t
      if qt ≠ "" then
        match pyInt (removeChar ',' qt) with
        | some q => some (n, q)
        | none => none
      else none
    else none
  | _, _ => none

/-- One iteration of the card loop of genshin_final.scrape_rewards
Method 1: store the entry, and for a repeated name update only when the
new quantity is greater. -/
def genshin_m1_step (rewards : List (String × Int)) (c : GCard) :
    List (String × Int) :=
  match gcard_entry c with
  | some (n, q) =>
    match dictGet rewards n with
    | some old => if q > old then dictSet rewards n q else rewards
    | none => dictSet rewards n q
  | none => rewards

/-- The card loop of genshin_final.scrape_rewards Method 1. -/
def genshin_m1_cards (cards : List GCard) : List (String × Int) :=
  cards.foldl genshin_m1_step []

/-- The quantities contributed under one item name by a card list. -/
def genshin_card_quantities (name : String) (cards : List GCard) : List Int :=
  cards.filterMap (fun c =>
    match gcard_entry c with
    | some (n, q) => if n = name then some q else none
    | none => none)

/-! ## discord_bot_updated: parse_reward_string and format_rewards (list mode) -/

inductive PyVal where
  | i : Int → PyVal
  | s : String → PyVal
deriving DecidableEq, Repr

def pyvalStr : PyVal → String
  | .i n => toString n
  | .s s => s

/-- Split a character list at the last occurrence of sep (str.rsplit with
maxsplit 1). -/
def rsplitLast (sep : Char) : List Char → Option (List Char × List Char)
  | [] => none
  | c :: rest =>
    match rsplitLast sep rest with
    | some (a, b) => some (c :: a, b)
    | none => if c = sep then some ([], rest) else none

/-- discord_bot_updated.parse_reward_string. -/
def parse_reward_string (r : String) : String × PyVal :=
  if pyContains r ":" then
    match rsplitLast ':' r.data with
    | some (name, qty) =>
      ((⟨name⟩ : String),
        match pyInt (⟨qty⟩ : String) with
        | some n => PyVal.i n
        | none => PyVal.s (⟨qty⟩ : String))
    | none => (r, PyVal.i 1)
  else (r, PyVal.i 1)

/-- One iteration of the dictionary construction in format_rewards for
the list-shaped reward format: a repeated name is summed when both
values are ints, otherwise joined as a comma-separated string. -/
def format_rewards_step (d : List (String × PyVal)) (r : String) :
    List (String × PyVal) :=
  let (name, q) := parse_reward_string r
  match dictGet d name with
  | some old =>
    match old, q with
    | PyVal.i a, PyVal.i b => dictSet d name (PyVal.i (a + b))
    | _, _ => dictSet d name (PyVal.s (pyvalStr old ++ ", " ++ pyvalStr q))
  | none => dictSet d name q

/-- The dictionary built by format_rewards for the list-shaped reward
format. -/
def format_rewards_list_dict (rs : List String) : List (String × PyVal) :=
  rs.foldl format_rewards_step []

/-! ## waves scrape_rewards (waves_fixed and waves_final)

The page is represented by the components each method consumes: the
h2/h3 heading texts, the links collected by the walk following the
Total Rewards heading, the tables, and the card-container widgets. -/

def common_ui_elements : List String :=
  ["Sign in to edit", "Edit", "Add", "Sign In", "Create", "View source"]

/-- A link collected after the Total Rewards heading: its text, its title
attribute (default ""), and the text of its next sibling when that
sibling is a span with truthy text. -/
structure WRewardLink where
  text : String
  title : String
  siblingSpanText : Option String
deriving DecidableEq, Repr

structure WTableRow where
  cells : List String
deriving DecidableEq, Repr

structure WTable where
  text : String
  rows : List WTableRow
deriving DecidableEq, Repr

/-- A card-container: the link inside its card-caption span (title, text),
the first link anywhere in the card (title, text), the text of the first
span.card-text.card-font, and the text of the first span whose class list
contains card-text. -/
structure WCard where
  captionLink : Option (String × String)
  firstLink : Option (String × String)
  cardTextFontSpanText : Option String
  cardTextSpanText : Option String
deriving DecidableEq, Repr

structure WavesPage where
  headings : List String
  rewardLinks : List WRewardLink
  tables : List WTable
  cards : List WCard
deriving Repr

/-- Method 1 body per link (uiFilter distinguishes waves_fixed, which
skips common UI labels, from waves_final, which does not). -/
def waves_m1_step (uiFilter : Bool) (rewards : List (String × Int))
    (l : WRewardLink) : List (String × Int) :=
  let item_name := if pyStrip l.text ≠ "" then pyStrip l.text else l.title
  if uiFilter ∧ common_ui_elements.contains item_name then rewards
  else if item_name ≠ "" ∧ ¬(dictContains rewards item_name = true) then
    match l.siblingSpanText with
    | some t =>
      let qt := pyStrip t
      match searchFirst reQty qt.data with
      | some (g, _) =>
        match pyInt (removeChar ',' (⟨g⟩ : String)) with
        | some q => dictSet rewards item_name q
        | none => rewards
      | none => dictSet rewards item_name 1
    | none => dictSet rewards item_name 1
  else rewards

/-- Method 1: only runs when some h2/h3 heading contains Total Rewards. -/
def waves_method1 (uiFilter : Bool) (p : WavesPage) : List (String × Int) :=
  if p.headings.any (fun h => pyContains h "Total Rewards") then
    p.rewardLinks.foldl (waves_m1_step uiFilter) []
  else []

/-- Method 2 body per table row. -/
def waves_m2_row (uiFilter : Bool) (rewards : List (String × Int))
    (row : WTableRow) : List (String × Int) :=
  match row.cells with
  | c0 :: c1 :: _ =>
    let item_name := pyStrip c0
    let quantity_text := pyStrip c1
    if uiFilter ∧ common_ui_elements.contains item_name then rewards
    else if item_name ≠ "" then
      match searchFirst reQty quantity_text.data with
      | some (g, _) =>
        match pyInt (removeChar ',' (⟨g⟩ : String)) with
        | some q => dictSet rewards item_name q
        | none => rewards
      | none => dictSet rewards item_name 1
    else rewards
  | _ => rewards

/-- Method 2 per table: only tables whose text mentions rewards, skipping
the first row when there are at least two. -/
def waves_m2_table (uiFilter : Bool) (rewards : List (String × Int))
    (t : WTable) : List (String × Int) :=
  if pyContains (pyLower t.text) "rewards" then
    (if t.rows.length > 1 then t.rows.drop 1 else t.rows).foldl
      (waves_m2_row uiFilter) rewards
  else rewards

/-- Method 3 body of waves_fixed (caption-anchored card scan). -/
def waves_m3_fixed_step (rewards : List (String × Int)) (c : WCard) :
    List (String × Int) :=
  match c.captionLink with
  | none => rewards
  | some (title, txt) =>
    let item_name := if title ≠ "" then title else pyStrip txt
    if common_ui_elements.contains item_name then rewards
    else
      match (match c.cardTextFontSpanText with
             | some t => some t
             | none => c.cardTextSpanText) with
      | some t =>
        if item_name ≠ "" then
          match pyInt (removeChar ',' (pyStrip t)) with
          | some q => dictSet rewards item_name q
          | none => rewards
        else rewards
      | none => rewards

/-- Method 3 body of waves_final. -/
def waves_m3_final_step (rewards : List (String × Int)) (c : WCard) :
    List (String × Int) :=
  match c.firstLink, c.cardTextSpanText with
  | some (title, txt), some t =>
    let item_name := if title ≠ "" then title else pyStrip txt
    let quantity_text := pyStrip t
    if item_name ≠ "" ∧ quantity_text ≠ "" then
      match pyInt (removeChar ',' quantity_text) with
      | some q => dictSet rewards item_name q
      | none => rewards
    else rewards
  | _, _ => rewards

/-- waves_fixed.scrape_rewards: Method 2 only when Method 1 found
nothing; Method 3 runs unconditionally, merging into the dict. -/
def scrape_rewards_waves_fixed (p : WavesPage) : List (String × Int) :=
  let r1 := waves_method1 true p
  let r2 := if r1 = [] then p.tables.foldl (waves_m2_table true) r1 else r1
  p.cards.foldl waves_m3_fixed_step r2

/-- waves_final.scrape_rewards: Method 3 only when Methods 1 and 2 found
nothing. -/
def scrape_rewards_waves_final (p : WavesPage) : List (String × Int) :=
  let r1 := waves_method1 false p
  let r2 := if r1 = [] then p.tables.foldl (waves_m2_table false) r1 else r1
  if r2 = [] then p.cards.foldl waves_m3_final_step r2 else r2

/-- Strategy B (table scan) in isolation, from an empty dict. -/
def waves_strategyB (uiFilter : Bool) (p : WavesPage) : List (String × Int) :=
  p.tables.foldl (waves_m2_table uiFilter) []

/-- Strategy C (plain card scan) of the bug-fixing variant, merging into
prior results. -/
def waves_strategyC_fixed (base : List (String × Int)) (p : WavesPage) :
    List (String × Int) :=
  p.cards.foldl waves_m3_fixed_step base

/-- Strategy C of the earlier variant, from an empty dict. -/
def waves_strategyC_final (p : WavesPage) : List (String × Int) :=
  p.cards.foldl waves_m3_final_step []

/-- A demonstration page on which Strategy A succeeds and a reward card
exists outside the heading-scoped region. -/
def waves_demo_page : WavesPage :=
  { headings := ["Total Rewards"],
    rewardLinks := [{ text := "Astrite", title := "", siblingSpanText := some "x60" }],
    tables := [],
    cards := [{ captionLink := some ("Lustrous Tide", ""),
                firstLink := some ("Lustrous Tide", ""),
                cardTextFontSpanText := some "5", cardTextSpanText := some "5" }] }

/-- A demonstration page on which only the table scan succeeds. -/
def waves_demo_table_page : WavesPage :=
  { headings := [],
    rewardLinks := [],
    tables := [{ text := "Rewards here",
                 rows := [⟨["Item", "Qty"]⟩, ⟨["Astrite", "60"]⟩] }],
    cards := [] }

/-- A demonstration page on which only the card scan succeeds. -/
def waves_demo_card_page : WavesPage :=
  { headings := [],
    rewardLinks := [],
    tables := [],
    cards := [{ captionLink := some ("Lustrous Tide", ""),
                firstLink := some ("Lustrous Tide", ""),
                cardTextFontSpanText := some "5", cardTextSpanText := some "5" }] }

/-! ## genshin_fixed.parse_quantity -/

/-- genshin_fixed.parse_quantity: lower-case, drop every x and every
comma, strip, parse as int; any failure (or a missing/empty text) gives
1. -/
def parse_quantity (text : Option String) : Int :=
  match text with
  | none => 1
  | some t =>
    if t = "" then 1
    else
      match pyInt (pyStrip (removeChar ',' (removeChar 'x' (pyLower t)))) with
      | some n => n
      | none => 1

/-! ## Event-list extractors (scrape_genshin_events, scrape_waves_events)

The index page is represented by what the heading search and the link
walk read; fetching a detail page is an oracle String → Option detail,
none meaning a failed fetch (non-200 or exception). -/

structure GLink where
  href : Option String
  text : String
deriving DecidableEq, Repr

structure GDetail where
  start_date : String
  end_date : String
  type : String
  reward_list : List (String × Int)
deriving DecidableEq, Repr

structure GEvent where
  name : String
  link : String
  start_date : String
  end_date : String
  type : String
  reward_list : List (String × Int)
deriving DecidableEq, Repr

def genshin_base : String := "https://genshin-impact.fandom.com"

/-- The link-processing loop of genshin_final.scrape_genshin_events:
skip links without href or with blank text, deduplicate on the raw href
via the processed_links set, resolve leading-slash hrefs against the
wiki origin, and append a record even when the detail fetch fails.
Returns (events_data, processed_links in insertion order). -/
def genshin_link_step (detail : String → Option GDetail)
    (acc : List GEvent × List String) (link : GLink) : List GEvent × List String :=
  match link.href with
  | none => acc
  | some h =>
    if pyStrip link.text = "" then acc
    else if acc.2.contains h then acc
    else
      let event_name := pyStrip link.text
      let event_link := if pyStartsWith h "/" then genshin_base ++ h else h
      let base : GEvent :=
        { name := event_name, link := event_link, start_date := "",
          end_date := "", type := "", reward_list := [] }
      let ev := match detail event_link with
        | some d =>
          { base with
            start_date := d.start_date
            end_date := d.end_date
            type := d.type
            reward_list := d.reward_list }
        | none => base
      (acc.1 ++ [ev], acc.2 ++ [h])

def process_genshin_links (links : List GLink) (detail : String → Option GDetail) :
    List GEvent × List String :=
  links.foldl (genshin_link_step detail) ([], [])

/-- The index page parts read by the Current-heading search of
scrape_genshin_events: span ids, h3 string contents, h3 texts. -/
structure GPage where
  spanIds : List String
  h3Strings : List (Option String)
  h3Texts : List String
  links : List GLink
deriving Repr

/-- soup.find(span, id Current) or soup.find(h3, string Current), with
the fallback loop over h3 texts compared stripped. -/
def genshin_current_heading_found (p : GPage) : Bool :=
  p.spanIds.contains "Current" || p.h3Strings.contains (some "Current")
    || p.h3Texts.any (fun t => pyStrip t = "Current")

/-- genshin_final.scrape_genshin_events: None (Python None) when the
index fetch fails or no form of the Current heading is found; otherwise
the processed link list.  Link collection between heading and loop is
the walk abstracted into p.links. -/
def scrape_genshin_events (fetched : Option GPage)
    (detail : String → Option GDetail) : Option (List GEvent) :=
  match fetched with
  | none => none
  | some p =>
    if genshin_current_heading_found p then
      some (process_genshin_links p.links detail).1
    else none

structure WLink where
  href : Option String
  text : String
deriving DecidableEq, Repr

structure WDetail where
  start_date : String
  end_date : String
  type : String
  rewards : List (String × Int)
deriving DecidableEq, Repr

structure WEvent where
  name : String
  link : String
  start_date : String
  end_date : String
  type : String
  rewards : List (String × Int)
deriving DecidableEq, Repr

def waves_base : String := "https://wutheringwaves.fandom.com"

/-- The href denylist filter of scrape_waves_events: keep a link only if
its href contains /wiki/ and none of Category:, Template:, Version/. -/
def waves_href_ok (h : String) : Bool :=
  pyContains h "/wiki/" && !(pyContains h "Category:")
    && !(pyContains h "Template:") && !(pyContains h "Version/")

/-- The link-processing loop of waves_final.scrape_waves_events: skip
links without href or blank text, apply the href denylist, deduplicate
on the raw href, resolve /wiki/ hrefs against the wiki origin; a record
is appended only when the detail fetch succeeds and the name is
nonempty. -/
def waves_link_step (detail : String → Option WDetail)
    (acc : List WEvent × List String) (link : WLink) : List WEvent × List String :=
  match link.href with
  | none => acc
  | some h =>
    if pyStrip link.text = "" then acc
    else if ¬(waves_href_ok h = true) then acc
    else if acc.2.contains h then acc
    else
      let event_name := pyStrip link.text
      let event_link := if pyStartsWith h "/wiki/" then waves_base ++ h else h
      match detail event_link with
      | some d =>
        let ev : WEvent :=
          { name := event_name, link := event_link, start_date := d.start_date,
            end_date := d.end_date, type := d.type, rewards := d.rewards }
        if event_name ≠ "" then (acc.1 ++ [ev], acc.2 ++ [h])
        else (acc.1, acc.2 ++ [h])
      | none => (acc.1, acc.2 ++ [h])

def process_waves_links (links : List WLink) (detail : String → Option WDetail) :
    List WEvent × List String :=
  links.foldl (waves_link_step detail) ([], [])

structure WPage where
  headings : List String
  links : List WLink
deriving Repr

/-- The waves Current-heading search: some h2/h3 with truthy stripped
text whose text contains Current. -/
def waves_current_heading_found (p : WPage) : Bool :=
  p.headings.any (fun t => pyStrip t ≠ "" && pyContains t "Current")

/-- waves_final.scrape_waves_events: None when the index fetch raises or
no Current heading is found; otherwise the processed link list. -/
def scrape_waves_events (fetched : Option WPage)
    (detail : String → Option WDetail) : Option (List WEvent) :=
  match fetched with
  | none => none
  | some p =>
    if waves_current_heading_found p then
      some (process_waves_links p.links detail).1
    else none

/-! ## discord_bot_updated.load_events -/

inductive PyJson where
  | arr : List PyJson → PyJson
  | str : String → PyJson
  | num : Int → PyJson
  | obj : List (String × PyJson) → PyJson

def GENSHIN_EVENTS_FILE : String := "genshin_combined.json"

def WAVES_EVENTS_FILE : String := "wuthering_waves_current_events.json"

/-- The file picked by load_events for a game identifier. -/
def load_events_path (game_type : String) : String :=
  if pyLower game_type = "genshin" then GENSHIN_EVENTS_FILE else WAVES_EVENTS_FILE

/-- discord_bot_updated.load_events: reading (oracle readFile, none for
any open/read failure) and JSON parsing (oracle parseJson, none for a
parse failure) recover to an empty list. -/
def load_events (readFile : String → Option String)
    (parseJson : String → Option PyJson) (game_type : String) : PyJson :=
  match readFile (load_events_path game_type) with
  | none => PyJson.arr []
  | some content =>
    match parseJson content with
    | none => PyJson.arr []
    | some j => j

/-! ## Helper lemmas: digits, padding, matcher roundtrips -/

theorem digitChar_facts : ∀ d < 10,
    isDigitC (digitChar d) = true ∧ digitVal (digitChar d) = d ∧
    (digitChar d).toNat = 48 + d ∧ digitChar d ≠ '/' ∧ digitChar d ≠ '-' ∧
    digitChar d ≠ ' ' ∧ digitChar d ≠ ':' ∧ isWS (digitChar d) = false := by
  decide

theorem mod10_lt (n : Nat) : n % 10 < 10 := Nat.mod_lt _ (by omega)

theorem digitCharM_facts (n : Nat) :
    isDigitC (digitChar (n % 10)) = true ∧ digitVal (digitChar (n % 10)) = n % 10 ∧
    (digitChar (n % 10)).toNat = 48 + n % 10 ∧ digitChar (n % 10) ≠ '/' ∧
    digitChar (n % 10) ≠ '-' ∧ digitChar (n % 10) ≠ ' ' ∧ digitChar (n % 10) ≠ ':' ∧
    isWS (digitChar (n % 10)) = false :=
  digitChar_facts (n % 10) (mod10_lt n)

theorem matchY_pad4 (y : Nat) (rest : List Char) :
    matchY (pad4 y ++ rest) = some (y % 10000, rest) := by
  have h1 := digitCharM_facts (y / 1000)
  have h2 := digitCharM_facts (y / 100)
  have h3 := digitCharM_facts (y / 10)
  have h4 := digitCharM_facts y
  simp only [pad4, List.cons_append, List.nil_append, matchY, h1.1, h2.1, h3.1, h4.1,
    Bool.and_self, if_pos, h1.2.1, h2.2.1, h3.2.1, h4.2.1, Option.some.injEq,
    Prod.mk.injEq]
  exact ⟨by omega, trivial⟩

theorem matchMon_pad2 (m : Nat) (h1 : 1 ≤ m) (h2 : m ≤ 12) (rest : List Char) :
    matchMon (pad2 m ++ rest) = some (m, rest) := by
  interval_cases m <;> rfl

theorem matchDay_pad2 (d : Nat) (h1 : 1 ≤ d) (h2 : d ≤ 31) (rest : List Char) :
    matchDay (pad2 d ++ rest) = some (d, rest) := by
  interval_cases d <;> rfl

theorem matchHour_pad2 (h : Nat) (h2 : h ≤ 23) (rest : List Char) :
    matchHour (pad2 h ++ rest) = some (h, rest) := by
  interval_cases h <;> rfl

theorem matchMin_pad2 (mi : Nat) (h2 : mi ≤ 59) (rest : List Char) :
    matchMin (pad2 mi ++ rest) = some (mi, rest) := by
  interval_cases mi <;> rfl

theorem matchWS_pad2 (h : Nat) (rest : List Char) :
    matchWS (' ' :: (pad2 h ++ rest)) = some (pad2 h ++ rest) := by
  have hd := (digitCharM_facts (h / 10)).2.2.2.2.2.2.2
  have h1 : isWS ' ' = true := rfl
  simp [matchWS, pad2, List.cons_append, List.dropWhile_cons, h1, hd]

theorem isDigitC_bounds {c : Char} (h : isDigitC c = true) :
    48 ≤ c.toNat ∧ c.toNat ≤ 57 := by
  simp only [isDigitC, Bool.and_eq_true, decide_eq_true_eq] at h
  exact h

theorem matchY_range {cs : List Char} {y : Nat} {r : List Char}
    (h : matchY cs = some (y, r)) : y ≤ 9999 := by
  match cs with
  | [] => simp [matchY] at h
  | [a] => simp [matchY] at h
  | [a, b] => simp [matchY] at h
  | [a, b, c] => simp [matchY] at h
  | a :: b :: c :: d :: rest =>
    simp only [matchY] at h
    split at h
    · rename_i hcond
      simp only [Bool.and_eq_true] at hcond
      obtain ⟨⟨⟨ha, hb⟩, hc⟩, hd⟩ := hcond
      have ba := isDigitC_bounds ha
      have bb := isDigitC_bounds hb
      have bc := isDigitC_bounds hc
      have bd := isDigitC_bounds hd
      simp only [Option.some.injEq, Prod.mk.injEq] at h
      simp only [digitVal] at h
      omega
    · simp at h

theorem matchMon_range {cs : List Char} {m : Nat} {r : List Char}
    (h : matchMon cs = some (m, r)) : 1 ≤ m ∧ m ≤ 12 := by
  match cs with
  | [] => simp [matchMon] at h
  | c :: rest =>
    simp only [matchMon] at h
    split at h
    · match rest with
      | [] => simp at h
      | d :: rest2 =>
        simp only at h
        split at h
        · rename_i hcond
          simp only [Bool.and_eq_true, decide_eq_true_eq] at hcond
          have := isDigitC_bounds hcond.1
          have hne : d.toNat ≠ 48 := hcond.2
          simp only [Option.some.injEq, Prod.mk.injEq] at h
          simp only [digitVal] at h
          omega
        · simp at h
    · split at h
      · match rest with
        | [] =>
          simp only [Option.some.injEq, Prod.mk.injEq] at h
          omega
        | d :: rest2 =>
          simp only at h
          split at h
          · rename_i hcond
            simp only [Bool.and_eq_true, decide_eq_true_eq] at hcond
            simp only [Option.some.injEq, Prod.mk.injEq] at h
            simp only [digitVal] at h
            omega
          · simp only [Option.some.injEq, Prod.mk.injEq] at h
            omega
      · split at h
        · rename_i hcond
          simp only [Bool.and_eq_true, decide_eq_true_eq] at hcond
          simp only [Option.some.injEq, Prod.mk.injEq] at h
          simp only [digitVal] at h
          omega
        · simp at h

theorem matchDay_range {cs : List Char} {d : Nat} {r : List Char}
    (h : matchDay cs = some (d, r)) : 1 ≤ d ∧ d ≤ 31 := by
  match cs with
  | [] => simp [matchDay] at h
  | c :: rest =>
    simp only [matchDay] at h
    split at h
    · match rest with
      | [] =>
        simp only [Option.some.injEq, Prod.mk.injEq] at h
        omega
      | e :: rest2 =>
        simp only at h
        split at h
        · rename_i hcond
          simp only [Bool.or_eq_true, decide_eq_true_eq] at hcond
          simp only [Option.some.injEq, Prod.mk.injEq] at h
          simp only [digitVal] at h
          omega
        · simp only [Option.some.injEq, Prod.mk.injEq] at h
          omega
    · split at h
      · rename_i hcond
        simp only [Bool.or_eq_true, decide_eq_true_eq] at hcond
        match rest with
        | [] =>
          simp only [Option.some.injEq, Prod.mk.injEq] at h
          simp only [digitVal] at h
          omega
        | e :: rest2 =>
          simp only at h
          split at h
          · rename_i hcond2
            have := isDigitC_bounds hcond2
            simp only [Option.some.injEq, Prod.mk.injEq] at h
            simp only [digitVal] at h
            omega
          · simp only [Option.some.injEq, Prod.mk.injEq] at h
            simp only [digitVal] at h
            omega
      · split at h
        · match rest with
          | [] => simp at h
          | e :: rest2 =>
            simp only at h
            split at h
            · rename_i hcond
              simp only [Bool.and_eq_true, decide_eq_true_eq] at hcond
              have := isDigitC_bounds hcond.1
              have hne : e.toNat ≠ 48 := hcond.2
              simp only [Option.some.injEq, Prod.mk.injEq] at h
              simp only [digitVal] at h
              omega
            · simp at h
        · split at h
          · rename_i hcond
            simp only [Bool.and_eq_true, decide_eq_true_eq] at hcond
            simp only [Option.some.injEq, Prod.mk.injEq] at h
            simp only [digitVal] at h
            omega
          · simp at h

theorem matchHour_range {cs : List Char} {x : Nat} {r : List Char}
    (h : matchHour cs = some (x, r)) : x ≤ 23 := by
  match cs with
  | [] => simp [matchHour] at h
  | c :: rest =>
    simp only [matchHour] at h
    split at h
    · match rest with
      | [] =>
        simp only [Option.some.injEq, Prod.mk.injEq] at h
        omega
      | e :: rest2 =>
        simp only at h
        split at h
        · rename_i hcond
          simp only [Bool.and_eq_true, decide_eq_true_eq] at hcond
          simp only [Option.some.injEq, Prod.mk.injEq] at h
          simp only [digitVal] at h
          omega
        · simp only [Option.some.injEq, Prod.mk.injEq] at h
          omega
    · split at h
      · rename_i hcond
        simp only [Bool.or_eq_true, decide_eq_true_eq] at hcond
        match rest with
        | [] =>
          simp only [Option.some.injEq, Prod.mk.injEq] at h
          simp only [digitVal] at h
          omega
        | e :: rest2 =>
          simp only at h
          split at h
          · rename_i hcond2
            have := isDigitC_bounds hcond2
            simp only [Option.some.injEq, Prod.mk.injEq] at h
            simp only [digitVal] at h
            omega
          · simp only [Option.some.injEq, Prod.mk.injEq] at h
            simp only [digitVal] at h
            omega
      · split at h
        · rename_i hcond
          have := isDigitC_bounds hcond
          simp only [Option.some.injEq, Prod.mk.injEq] at h
          simp only [digitVal] at h
          omega
        · simp at h

theorem matchMin_range {cs : List Char} {x : Nat} {r : List Char}
    (h : matchMin cs = some (x, r)) : x ≤ 59 := by
  match cs with
  | [] => simp [matchMin] at h
  | c :: rest =>
    simp only [matchMin] at h
    split at h
    · rename_i hcond
      simp only [Bool.and_eq_true, decide_eq_true_eq] at hcond
      match rest with
      | [] =>
        simp only [Option.some.injEq, Prod.mk.injEq] at h
        simp only [digitVal] at h
        omega
      | e :: rest2 =>
        simp only at h
        split at h
        · rename_i hcond2
          have := isDigitC_bounds hcond2
          simp only [Option.some.injEq, Prod.mk.injEq] at h
          simp only [digitVal] at h
          omega
        · simp only [Option.some.injEq, Prod.mk.injEq] at h
          simp only [digitVal] at h
          omega
    · split at h
      · rename_i hcond
        have := isDigitC_bounds hcond
        simp only [Option.some.injEq, Prod.mk.injEq] at h
        simp only [digitVal] at h
        omega
      · simp at h

theorem daysInMonth_le (y m : Nat) : daysInMonth y m ≤ 31 := by
  simp only [daysInMonth]
  split_ifs <;> omega

theorem strptimeYmd_some {sep : Char} {cs : List Char} {y m d : Nat}
    (h : strptimeYmd sep cs = some (y, m, d)) :
    1 ≤ y ∧ y ≤ 9999 ∧ 1 ≤ m ∧ m ≤ 12 ∧ 1 ≤ d ∧ d ≤ daysInMonth y m := by
  simp only [strptimeYmd] at h
  split at h
  · simp at h
  rename_i y0 r1 hY
  split at h
  · simp at h
  rename_i r2 hL1
  split at h
  · simp at h
  rename_i m0 r3 hM
  split at h
  · simp at h
  rename_i r4 hL2
  split at h
  · simp at h
  rename_i d0 r5 hD
  split at h
  · rename_i hcond
    simp only [Option.some.injEq, Prod.mk.injEq] at h
    obtain ⟨hy, hm, hd⟩ := h
    subst hy; subst hm; subst hd
    have hYr := matchY_range hY
    have hMr := matchMon_range hM
    have hDr := matchDay_range hD
    exact ⟨hcond.2.1, hYr, hMr.1, hMr.2, hDr.1, hcond.2.2⟩
  · simp at h

theorem strptimeYmdHM_some {sep : Char} {cs : List Char} {y m d hh mi : Nat}
    (h : strptimeYmdHM sep cs = some (y, m, d, hh, mi)) :
    1 ≤ y ∧ y ≤ 9999 ∧ 1 ≤ m ∧ m ≤ 12 ∧ 1 ≤ d ∧ d ≤ daysInMonth y m ∧
    hh ≤ 23 ∧ mi ≤ 59 := by
  simp only [strptimeYmdHM] at h
  split at h
  · simp at h
  rename_i y0 r1 hY
  split at h
  · simp at h
  rename_i r2 hL1
  split at h
  · simp at h
  rename_i m0 r3 hM
  split at h
  · simp at h
  rename_i r4 hL2
  split at h
  · simp at h
  rename_i d0 r5 hD
  split at h
  · simp at h
  rename_i r6 hW
  split at h
  · simp at h
  rename_i h0 r7 hH
  split at h
  · simp at h
  rename_i r8 hL3
  split at h
  · simp at h
  rename_i mi0 r9 hMi
  split at h
  · rename_i hcond
    simp only [Option.some.injEq, Prod.mk.injEq] at h
    obtain ⟨hy, hm, hd, hhh, hmi⟩ := h
    subst hy; subst hm; subst hd; subst hhh; subst hmi
    have hYr := matchY_range hY
    have hMr := matchMon_range hM
    have hDr := matchDay_range hD
    have hHr := matchHour_range hH
    have hMir := matchMin_range hMi
    exact ⟨hcond.2.1, hYr, hMr.1, hMr.2, hDr.1, hcond.2.2, hHr, hMir⟩
  · simp at h

theorem matchLit_cons (x : Char) (l : List Char) : matchLit x (x :: l) = some l := by
  simp [matchLit]

theorem strptimeYmd_roundtrip (y m d : Nat) (hy1 : 1 ≤ y) (hy : y ≤ 9999)
    (hm1 : 1 ≤ m) (hm : m ≤ 12) (hd1 : 1 ≤ d) (hd : d ≤ daysInMonth y m) :
    strptimeYmd '-' (strftimeD y m d).data = some (y, m, d) := by
  have hd31 : d ≤ 31 := le_trans hd (daysInMonth_le y m)
  have hD := matchDay_pad2 d hd1 hd31 []
  rw [List.append_nil] at hD
  show strptimeYmd '-' (pad4 y ++ '-' :: (pad2 m ++ '-' :: pad2 d)) = some (y, m, d)
  simp only [strptimeYmd, matchY_pad4, Nat.mod_eq_of_lt (show y < 10000 by omega),
    matchLit_cons, matchMon_pad2 m hm1 hm, hD]
  rw [if_pos ⟨trivial, hy1, hd⟩]

theorem strptimeYmdHM_roundtrip (y m d h mi : Nat) (hy1 : 1 ≤ y) (hy : y ≤ 9999)
    (hm1 : 1 ≤ m) (hm : m ≤ 12) (hd1 : 1 ≤ d) (hd : d ≤ daysInMonth y m)
    (hh : h ≤ 23) (hmi : mi ≤ 59) :
    strptimeYmdHM '-' (strftimeDT y m d h mi).data = some (y, m, d, h, mi) := by
  have hd31 : d ≤ 31 := le_trans hd (daysInMonth_le y m)
  have hMi := matchMin_pad2 mi hmi []
  rw [List.append_nil] at hMi
  show strptimeYmdHM '-'
      (pad4 y ++ '-' :: (pad2 m ++ '-' :: (pad2 d ++ ' ' :: (pad2 h ++ ':' :: pad2 mi)))) =
    some (y, m, d, h, mi)
  simp only [strptimeYmdHM, matchY_pad4, Nat.mod_eq_of_lt (show y < 10000 by omega),
    matchLit_cons, matchMon_pad2 m hm1 hm,
    matchDay_pad2 d hd1 hd31 (' ' :: (pad2 h ++ ':' :: pad2 mi)),
    matchWS_pad2 h (':' :: pad2 mi), matchHour_pad2 h hh (':' :: pad2 mi), hMi]
  rw [if_pos ⟨trivial, hy1, hd⟩]

theorem dash_facts : ('-' ≠ '/') ∧ ('-' ≠ ' ') ∧ isWS '-' = false ∧
    (':' ≠ '/') ∧ (':' ≠ ' ') ∧ (' ' ≠ '/') := by
  decide

theorem strftimeD_data (y m d : Nat) :
    (strftimeD y m d).data = pad4 y ++ '-' :: (pad2 m ++ '-' :: pad2 d) := rfl

theorem strftimeDT_data (y m d h mi : Nat) :
    (strftimeDT y m d h mi).data =
      pad4 y ++ '-' :: (pad2 m ++ '-' :: (pad2 d ++ ' ' :: (pad2 h ++ ':' :: pad2 mi))) := rfl

theorem hasChar_append (l1 l2 : List Char) (c : Char) :
    hasChar (l1 ++ l2) c = (hasChar l1 c || hasChar l2 c) := by
  simp [hasChar]

theorem hasChar_pad4 (n : Nat) (c : Char) (h1 : digitChar (n / 1000 % 10) ≠ c)
    (h2 : digitChar (n / 100 % 10) ≠ c) (h3 : digitChar (n / 10 % 10) ≠ c)
    (h4 : digitChar (n % 10) ≠ c) : hasChar (pad4 n) c = false := by
  simp [hasChar, pad4, h1, h2, h3, h4]

theorem hasChar_pad2 (n : Nat) (c : Char) (h1 : digitChar (n / 10 % 10) ≠ c)
    (h2 : digitChar (n % 10) ≠ c) : hasChar (pad2 n) c = false := by
  simp [hasChar, pad2, h1, h2]

theorem strftimeD_no_slash (y m d : Nat) : hasChar (strftimeD y m d).data '/' = false := by
  rw [strftimeD_data]
  simp [hasChar_append, hasChar, pad4, pad2,
    (digitCharM_facts (y / 1000)).2.2.2.1, (digitCharM_facts (y / 100)).2.2.2.1,
    (digitCharM_facts (y / 10)).2.2.2.1, (digitCharM_facts y).2.2.2.1,
    (digitCharM_facts (m / 10)).2.2.2.1, (digitCharM_facts m).2.2.2.1,
    (digitCharM_facts (d / 10)).2.2.2.1, (digitCharM_facts d).2.2.2.1]

theorem strftimeD_has_dash (y m d : Nat) : hasChar (strftimeD y m d).data '-' = true := by
  rw [strftimeD_data]
  simp [hasChar]

theorem strftimeD_no_space (y m d : Nat) : hasChar (strftimeD y m d).data ' ' = false := by
  rw [strftimeD_data]
  simp [hasChar_append, hasChar, pad4, pad2,
    (digitCharM_facts (y / 1000)).2.2.2.2.2.1, (digitCharM_facts (y / 100)).2.2.2.2.2.1,
    (digitCharM_facts (y / 10)).2.2.2.2.2.1, (digitCharM_facts y).2.2.2.2.2.1,
    (digitCharM_facts (m / 10)).2.2.2.2.2.1, (digitCharM_facts m).2.2.2.2.2.1,
    (digitCharM_facts (d / 10)).2.2.2.2.2.1, (digitCharM_facts d).2.2.2.2.2.1]

theorem strftimeD_ne_nil (y m d : Nat) : (strftimeD y m d).data ≠ [] := by
  rw [strftimeD_data]
  simp [pad4]

theorem strftimeDT_no_slash (y m d h mi : Nat) :
    hasChar (strftimeDT y m d h mi).data '/' = false := by
  rw [strftimeDT_data]
  simp [hasChar_append, hasChar, pad4, pad2,
    (digitCharM_facts (y / 1000)).2.2.2.1, (digitCharM_facts (y / 100)).2.2.2.1,
    (digitCharM_facts (y / 10)).2.2.2.1, (digitCharM_facts y).2.2.2.1,
    (digitCharM_facts (m / 10)).2.2.2.1, (digitCharM_facts m).2.2.2.1,
    (digitCharM_facts (d / 10)).2.2.2.1, (digitCharM_facts d).2.2.2.1,
    (digitCharM_facts (h / 10)).2.2.2.1, (digitCharM_facts h).2.2.2.1,
    (digitCharM_facts (mi / 10)).2.2.2.1, (digitCharM_facts mi).2.2.2.1]

theorem strftimeDT_has_dash (y m d h mi : Nat) :
    hasChar (strftimeDT y m d h mi).data '-' = true := by
  rw [strftimeDT_data]
  simp [hasChar]

theorem strftimeDT_has_space (y m d h mi : Nat) :
    hasChar (strftimeDT y m d h mi).data ' ' = true := by
  rw [strftimeDT_data]
  simp [hasChar]

theorem strftimeDT_ne_nil (y m d h mi : Nat) : (strftimeDT y m d h mi).data ≠ [] := by
  rw [strftimeDT_data]
  simp [pad4]

theorem takeWhile_all {p : Char → Bool} :
    ∀ {l : List Char}, (∀ c ∈ l, p c = true) → l.takeWhile p = l := by
  intro l
  induction l with
  | nil => intro _; rfl
  | cons c t ih =>
    intro h
    have hc := h c (List.mem_cons_self c t)
    simp [List.takeWhile_cons, hc, ih (fun x hx => h x (List.mem_cons_of_mem c hx))]

theorem takeWhile_append_stop {p : Char → Bool} {c0 : Char} {l2 : List Char}
    (h2 : p c0 = false) :
    ∀ {l1 : List Char}, (∀ c ∈ l1, p c = true) →
      (l1 ++ c0 :: l2).takeWhile p = l1 := by
  intro l1
  induction l1 with
  | nil => intro _; simp [List.takeWhile_cons, h2]
  | cons c t ih =>
    intro h
    have hc := h c (List.mem_cons_self c t)
    simp [List.takeWhile_cons, hc, ih (fun x hx => h x (List.mem_cons_of_mem c hx))]

theorem mem_dateD_ne_space (y m d : Nat) :
    ∀ c ∈ pad4 y ++ '-' :: (pad2 m ++ '-' :: pad2 d), (decide (c ≠ ' ')) = true := by
  intro c hc
  simp only [pad4, pad2, List.mem_append, List.mem_cons, List.mem_singleton,
    List.not_mem_nil, or_false] at hc
  rcases hc with (h | h | h | h) | h | (h | h) | h | h | h <;> subst h <;>
    simp [(digitCharM_facts _).2.2.2.2.2.1]

theorem dateKey_strftimeD (y m d : Nat) (hy1 : 1 ≤ y) (hy : y ≤ 9999)
    (hm1 : 1 ≤ m) (hm : m ≤ 12) (hd1 : 1 ≤ d) (hd : d ≤ daysInMonth y m) :
    dateKey (strftimeD y m d) = some (y * 10000 + m * 100 + d) := by
  have htw : (strftimeD y m d).data.takeWhile (fun c => decide (c ≠ ' ')) =
      (strftimeD y m d).data := by
    rw [strftimeD_data]
    exact takeWhile_all (mem_dateD_ne_space y m d)
  simp only [dateKey, htw, strptimeYmd_roundtrip y m d hy1 hy hm1 hm hd1 hd]

theorem dateKey_strftimeDT (y m d h mi : Nat) (hy1 : 1 ≤ y) (hy : y ≤ 9999)
    (hm1 : 1 ≤ m) (hm : m ≤ 12) (hd1 : 1 ≤ d) (hd : d ≤ daysInMonth y m) :
    dateKey (strftimeDT y m d h mi) = some (y * 10000 + m * 100 + d) := by
  have hassoc : (strftimeDT y m d h mi).data =
      (pad4 y ++ '-' :: (pad2 m ++ '-' :: pad2 d)) ++ ' ' :: (pad2 h ++ ':' :: pad2 mi) := by
    rw [strftimeDT_data]
    simp [List.append_assoc]
  have htw : (strftimeDT y m d h mi).data.takeWhile (fun c => decide (c ≠ ' ')) =
      pad4 y ++ '-' :: (pad2 m ++ '-' :: pad2 d) := by
    rw [hassoc]
    exact takeWhile_append_stop (by simp) (mem_dateD_ne_space y m d)
  have hrt : strptimeYmd '-' (pad4 y ++ '-' :: (pad2 m ++ '-' :: pad2 d)) = some (y, m, d) :=
    strptimeYmd_roundtrip y m d hy1 hy hm1 hm hd1 hd
  simp only [dateKey, htw, hrt]

theorem paf_strftimeD (y m d : Nat) (hy1 : 1 ≤ y) (hy : y ≤ 9999)
    (hm1 : 1 ≤ m) (hm : m ≤ 12) (hd1 : 1 ≤ d) (hd : d ≤ daysInMonth y m) :
    parse_and_format_date (strftimeD y m d) = strftimeD y m d := by
  simp only [parse_and_format_date, strftimeD_ne_nil, strftimeD_no_slash,
    strftimeD_has_dash, strftimeD_no_space, Bool.false_eq_true, if_false, if_true,
    strptimeYmd_roundtrip y m d hy1 hy hm1 hm hd1 hd, if_neg (strftimeD_ne_nil y m d)]

theorem paf_strftimeDT (y m d h mi : Nat) (hy1 : 1 ≤ y) (hy : y ≤ 9999)
    (hm1 : 1 ≤ m) (hm : m ≤ 12) (hd1 : 1 ≤ d) (hd : d ≤ daysInMonth y m)
    (hh : h ≤ 23) (hmi : mi ≤ 59) :
    parse_and_format_date (strftimeDT y m d h mi) = strftimeDT y m d h mi := by
  simp only [parse_and_format_date, strftimeDT_ne_nil, strftimeDT_no_slash,
    strftimeDT_has_dash, strftimeDT_has_space, Bool.false_eq_true, if_false, if_true,
    strptimeYmdHM_roundtrip y m d h mi hy1 hy hm1 hm hd1 hd hh hmi,
    if_neg (strftimeDT_ne_nil y m d h mi)]

theorem paf_output (s : String) :
    parse_and_format_date s = s ∨
    (∃ y m d, (1 ≤ y ∧ y ≤ 9999 ∧ 1 ≤ m ∧ m ≤ 12 ∧ 1 ≤ d ∧ d ≤ daysInMonth y m) ∧
      parse_and_format_date s = strftimeD y m d) ∨
    (∃ y m d h mi,
      (1 ≤ y ∧ y ≤ 9999 ∧ 1 ≤ m ∧ m ≤ 12 ∧ 1 ≤ d ∧ d ≤ daysInMonth y m ∧
        h ≤ 23 ∧ mi ≤ 59) ∧
      parse_and_format_date s = strftimeDT y m d h mi) := by
  simp only [parse_and_format_date]
  split_ifs with h0 h1 h2 h3 h4
  · left
    obtain ⟨l⟩ := s
    have : l = [] := h0
    subst this
    rfl
  · split
    · rename_i y m d h mi heq
      right; right
      exact ⟨y, m, d, h, mi, strptimeYmdHM_some heq, rfl⟩
    · left; rfl
  · split
    · rename_i y m d heq
      right; left
      exact ⟨y, m, d, strptimeYmd_some heq, rfl⟩
    · left; rfl
  · split
    · rename_i y m d h mi heq
      right; right
      exact ⟨y, m, d, h, mi, strptimeYmdHM_some heq, rfl⟩
    · left; rfl
  · split
    · rename_i y m d heq
      right; left
      exact ⟨y, m, d, strptimeYmd_some heq, rfl⟩
    · left; rfl
  · left; rfl

theorem paf_idem (s : String) :
    parse_and_format_date (parse_and_format_date s) = parse_and_format_date s := by
  rcases paf_output s with h | ⟨y, m, d, hb, h⟩ | ⟨y, m, d, hh, mi, hb, h⟩
  · rw [h, h]
  · rw [h]
    exact paf_strftimeD y m d hb.1 hb.2.1 hb.2.2.1 hb.2.2.2.1 hb.2.2.2.2.1 hb.2.2.2.2.2
  · rw [h]
    exact paf_strftimeDT y m d hh mi hb.1 hb.2.1 hb.2.2.1 hb.2.2.2.1 hb.2.2.2.2.1
      hb.2.2.2.2.2.1 hb.2.2.2.2.2.2.1 hb.2.2.2.2.2.2.2

theorem dateKey_empty : dateKey "" = none := rfl

theorem vafd_cases (e : EventDates) :
    (validate_and_format_dates e =
        { e with start_date := parse_and_format_date e.start_date,
                 end_date := parse_and_format_date e.end_date } ∧
      (∀ a b, dateKey (parse_and_format_date e.start_date) = some a →
        dateKey (parse_and_format_date e.end_date) = some b → a ≤ b)) ∨
    (∃ a b, dateKey (parse_and_format_date e.start_date) = some a ∧
      dateKey (parse_and_format_date e.end_date) = some b ∧ b < a ∧
      validate_and_format_dates e =
        { e with start_date := parse_and_format_date e.end_date,
                 end_date := parse_and_format_date e.start_date }) := by
  simp only [validate_and_format_dates]
  split_ifs with hc
  · cases hks : dateKey (parse_and_format_date e.start_date) with
    | none =>
      left
      refine ⟨?_, ?_⟩
      · split
        · rename_i a b hks2 hke2
          simp at hks2
        · rfl
      · intro a b ha hb
        simp at ha
    | some a0 =>
      cases hke : dateKey (parse_and_format_date e.end_date) with
      | none =>
        left
        refine ⟨?_, ?_⟩
        · split
          · rename_i a b hks2 hke2
            simp at hke2
          · rfl
        · intro a b ha hb
          simp at hb
      | some b0 =>
        by_cases hab : a0 > b0
        · right
          refine ⟨a0, b0, rfl, rfl, hab, ?_⟩
          split
          · rename_i a b hks2 hke2
            simp only [Option.some.injEq] at hks2 hke2
            subst hks2; subst hke2
            rw [if_pos hab]
          · rename_i hnone
            exact (hnone a0 b0 rfl rfl).elim
        · left
          refine ⟨?_, ?_⟩
          · split
            · rename_i a b hks2 hke2
              simp only [Option.some.injEq] at hks2 hke2
              subst hks2; subst hke2
              rw [if_neg hab]
            · rename_i hnone
              exact (hnone a0 b0 rfl rfl).elim
          · intro a b ha hb
            simp only [Option.some.injEq] at ha hb
            subst ha; subst hb
            omega
  · left
    refine ⟨rfl, ?_⟩
    intro a b ha hb
    simp only [Bool.and_eq_true, decide_eq_true_eq, not_and_or, not_not] at hc
    rcases hc with hfs | hfe
    · rw [hfs, dateKey_empty] at ha
      simp at ha
    · rw [hfe, dateKey_empty] at hb
      simp at hb

theorem vafd_fixed (x : EventDates)
    (hs : parse_and_format_date x.start_date = x.start_date)
    (he : parse_and_format_date x.end_date = x.end_date)
    (hord : ∀ a b, dateKey x.start_date = some a → dateKey x.end_date = some b → a ≤ b) :
    validate_and_format_dates x = x := by
  simp only [validate_and_format_dates, hs, he]
  split_ifs with hc
  · cases hks : dateKey x.start_date with
    | none =>
      split
      · rename_i a b hks2 hke2
        simp at hks2
      · rfl
    | some a0 =>
      cases hke : dateKey x.end_date with
      | none =>
        split
        · rename_i a b hks2 hke2
          simp at hke2
        · rfl
      | some b0 =>
        have hle := hord a0 b0 hks hke
        split
        · rename_i a b hks2 hke2
          simp only [Option.some.injEq] at hks2 hke2
          subst hks2; subst hke2
          rw [if_neg (by omega)]
        · rename_i hnone
          exact (hnone a0 b0 rfl rfl).elim
  · rfl

theorem vafd_idem (e : EventDates) :
    validate_and_format_dates (validate_and_format_dates e) =
      validate_and_format_dates e := by
  rcases vafd_cases e with ⟨heq, hord⟩ | ⟨a0, b0, hks, hke, hlt, heq⟩
  · rw [heq]
    exact vafd_fixed _ (paf_idem e.start_date) (paf_idem e.end_date) hord
  · rw [heq]
    refine vafd_fixed _ (paf_idem e.end_date) (paf_idem e.start_date) ?_
    intro a b ha hb
    simp only at ha hb
    rw [hke] at ha; rw [hks] at hb
    simp only [Option.some.injEq] at ha hb
    subst ha; subst hb
    omega

theorem vafd_ordered (e : EventDates) (a b : Nat)
    (ha : dateKey ((validate_and_format_dates e).start_date) = some a)
    (hb : dateKey ((validate_and_format_dates e).end_date) = some b) : a ≤ b := by
  rcases vafd_cases e with ⟨heq, hord⟩ | ⟨a0, b0, hks, hke, hlt, heq⟩
  · rw [heq] at ha hb
    exact hord a b ha hb
  · rw [heq] at ha hb
    simp only at ha hb
    rw [hke] at ha; rw [hks] at hb
    simp only [Option.some.injEq] at ha hb
    subst ha; subst hb
    omega

theorem genshin_swap_props (s t : Nat) :
    (genshin_date_swap s t).1 ≤ (genshin_date_swap s t).2 ∧
    genshin_date_swap (genshin_date_swap s t).1 (genshin_date_swap s t).2 =
      genshin_date_swap s t := by
  by_cases h : s > t
  · simp only [genshin_date_swap, if_pos h]
    exact ⟨by omega, by simp only [genshin_date_swap, if_neg (show ¬t > s by omega)]⟩
  · simp only [genshin_date_swap, if_neg h]
    exact ⟨by omega, by simp only [genshin_date_swap, if_neg h]⟩

/-- Claim C1: reversed-date repair.  After validate_and_format_dates, any
record whose two dates carry parseable date parts satisfies
start_date ≤ end_date; the repair is idempotent on every record; and the
same swap is applied again at formatting time in get_formatted_events,
where it yields an ordered pair and is likewise idempotent. -/
theorem C1_reversed_date_repair :
    (∀ e : EventDates,
      validate_and_format_dates (validate_and_format_dates e) =
        validate_and_format_dates e) ∧
    (∀ (e : EventDates) (a b : Nat),
      dateKey ((validate_and_format_dates e).start_date) = some a →
      dateKey ((validate_and_format_dates e).end_date) = some b → a ≤ b) ∧
    (∀ s t : Nat,
      (genshin_date_swap s t).1 ≤ (genshin_date_swap s t).2 ∧
      genshin_date_swap (genshin_date_swap s t).1 (genshin_date_swap s t).2 =
        genshin_date_swap s t) :=
  ⟨vafd_idem, vafd_ordered, genshin_swap_props⟩

/-- Claim C1 witness: a concrete extraction-order-reversed record is
swapped into order, and the theorem applies to it. -/
theorem C1_reversed_date_repair_witness :
    (20250212 : Nat) ≤ 20250319 ∧
    validate_and_format_dates
        (validate_and_format_dates ⟨"E", "2025-03-19", "2025-02-12"⟩) =
      validate_and_format_dates ⟨"E", "2025-03-19", "2025-02-12"⟩ ∧
    validate_and_format_dates ⟨"E", "2025-03-19", "2025-02-12"⟩ =
      ⟨"E", "2025-02-12", "2025-03-19"⟩ :=
  ⟨C1_reversed_date_repair.2.1 ⟨"E", "2025-03-19", "2025-02-12"⟩ 20250212 20250319
      (by decide) (by decide),
    C1_reversed_date_repair.1 ⟨"E", "2025-03-19", "2025-02-12"⟩,
    by decide⟩

/-! ## Claims C9, C5, C8, C3 -/

/-- Claim C9: load_events reads the snapshot file picked by the game
identifier and returns an empty list, never an error, when the file is
absent or its contents do not parse as JSON. -/
theorem C9_load_events_total :
    (∀ (readFile : String → Option String) (parseJson : String → Option PyJson)
        (game_type : String),
      readFile (load_events_path game_type) = none →
        load_events readFile parseJson game_type = PyJson.arr []) ∧
    (∀ (readFile : String → Option String) (parseJson : String → Option PyJson)
        (game_type content : String),
      readFile (load_events_path game_type) = some content →
      parseJson content = none →
        load_events readFile parseJson game_type = PyJson.arr []) ∧
    (∀ game_type : String, load_events_path game_type =
      if pyLower game_type = "genshin" then GENSHIN_EVENTS_FILE
      else WAVES_EVENTS_FILE) := by
  refine ⟨?_, ?_, fun _ => rfl⟩
  · intro rf pj g h
    simp [load_events, h]
  · intro rf pj g c h1 h2
    simp [load_events, h1, h2]

/-- Claim C9 witness: a missing file and an unparsable file both yield
the empty list. -/
theorem C9_load_events_total_witness :
    load_events (fun _ => none) (fun _ => none) "genshin" = PyJson.arr [] ∧
    load_events (fun _ => some "junk") (fun _ => none) "Waves" = PyJson.arr [] :=
  ⟨C9_load_events_total.1 (fun _ => none) (fun _ => none) "genshin" rfl,
   C9_load_events_total.2.1 (fun _ => some "junk") (fun _ => none) "Waves" "junk" rfl rfl⟩

/-- Claim C5 counterexample: on an index page with no Current heading,
both event-list extractors return None (the null value), which is not an
empty sequence. -/
theorem C5_counterexample :
    scrape_genshin_events
        (some { spanIds := [], h3Strings := [], h3Texts := ["Upcoming", "Ended"],
                links := [] }) (fun _ => none) = none ∧
    scrape_waves_events (some { headings := ["Upcoming Events"], links := [] })
        (fun _ => none) = none ∧
    (none : Option (List GEvent)) ≠ some [] ∧
    (none : Option (List WEvent)) ≠ some [] := by
  refine ⟨rfl, rfl, by simp, by simp⟩

/-- Claim C5 amended: when the index fetch fails or no form of the
Current heading is found, the extractors return None (not an empty
sequence, and no exception); in every other case they return the
processed event list. -/
theorem C5_missing_heading_amended :
    (∀ detail, scrape_genshin_events none detail = none) ∧
    (∀ p detail, genshin_current_heading_found p = false →
      scrape_genshin_events (some p) detail = none) ∧
    (∀ p detail, genshin_current_heading_found p = true →
      scrape_genshin_events (some p) detail =
        some (process_genshin_links p.links detail).1) ∧
    (∀ detail, scrape_waves_events none detail = none) ∧
    (∀ p detail, waves_current_heading_found p = false →
      scrape_waves_events (some p) detail = none) ∧
    (∀ p detail, waves_current_heading_found p = true →
      scrape_waves_events (some p) detail =
        some (process_waves_links p.links detail).1) := by
  refine ⟨fun _ => rfl, ?_, ?_, fun _ => rfl, ?_, ?_⟩
  · intro p detail h
    simp [scrape_genshin_events, h]
  · intro p detail h
    simp [scrape_genshin_events, h]
  · intro p detail h
    simp [scrape_waves_events, h]
  · intro p detail h
    simp [scrape_waves_events, h]

/-- Claim C5 witness: the amended theorem applied to concrete pages with
and without the Current heading. -/
theorem C5_missing_heading_amended_witness :
    scrape_genshin_events
        (some { spanIds := [], h3Strings := [], h3Texts := [], links := [] })
        (fun _ => none) = none ∧
    scrape_genshin_events
        (some { spanIds := ["Current"], h3Strings := [], h3Texts := [], links := [] })
        (fun _ => none) = some [] ∧
    scrape_waves_events (some { headings := [], links := [] }) (fun _ => none) = none ∧
    scrape_waves_events (some { headings := ["Current Events"], links := [] })
        (fun _ => none) = some [] :=
  ⟨C5_missing_heading_amended.2.1 _ _ (by decide),
   C5_missing_heading_amended.2.2.1 _ _ (by decide),
   C5_missing_heading_amended.2.2.2.2.1 _ _ (by decide),
   C5_missing_heading_amended.2.2.2.2.2 _ _ (by decide)⟩

theorem foldl_append_join {α β : Type} (l : List α) (f : α → List β) :
    ∀ init : List β,
      l.foldl (fun acc x => acc ++ f x) init = init ++ (l.map f).flatten := by
  induction l with
  | nil => intro init; simp
  | cons x t ih => intro init; simp [ih, List.append_assoc]

/-- Claim C8: extract_dates_from_text applies every pattern of its fixed
ordered list to the full text and concatenates the matches in
pattern-declaration order, so output order can differ from document
order; no match at all yields the empty list. -/
theorem C8_pattern_order :
    (∀ t, extract_dates_from_text_waves t =
      (waves_date_patterns.map (fun p => findallS p t)).flatten) ∧
    (∀ t, extract_dates_from_text_genshin t =
      (genshin_date_patterns.map (fun p => findallS p t)).flatten) ∧
    extract_dates_from_text_waves "February 13, 2025 to 2025-03-01" =
      ["2025-03-01", "February 13, 2025"] ∧
    extract_dates_from_text_genshin "12 March 2025 and Ap 9, 2025" =
      ["Ap 9, 2025", "12 March 2025"] ∧
    extract_dates_from_text_waves "nothing here" = [] ∧
    extract_dates_from_text_genshin "nothing here" = [] := by
  refine ⟨fun t => ?_, fun t => ?_, by decide, by decide, by decide, by decide⟩
  · simpa using foldl_append_join waves_date_patterns (fun p => findallS p t) []
  · simpa using foldl_append_join genshin_date_patterns (fun p => findallS p t) []

/-- Claim C3 counterexample: a data-sort-value that passes the length
and hyphen pre-check but contains no timestamp yields no dates at all;
the visible text, which carries a well-formed textual range, is never
consulted, contradicting the claimed fallback. -/
theorem C3_counterexample :
    extract_dates_from_duration_cell
        { dataSortValue := some "ab-cd-ef-gh-ijklmnopqrstuvwxysss",
          text := "February 20, 2025 – March 10, 2025" } = (none, none) ∧
    ((none, none) : Option String × Option String) ≠
      (some "February 20, 2025", some "March 10, 2025") := by
  exact ⟨by decide, by decide⟩

/-- Claim C3 amended: with two timestamps matched in the sortable
attribute, the first becomes end_date and the second start_date; the
visible-text fallback runs exactly when the attribute is present but
fails the pre-check (length at least 32 and at least 4 hyphens); with
the pre-check passed and fewer than two timestamps, only the
split-in-middle recovery can produce dates; with no attribute, no dates
are produced. -/
theorem C3_duration_cell_amended :
    (∀ (cell : DurationCell) (v : String) (d0 d1 : String) (rest : List String),
      cell.dataSortValue = some v → v.length ≥ 32 → hyphenCount v ≥ 4 →
      findallS reTimestamp v = d0 :: d1 :: rest →
      extract_dates_from_duration_cell cell = (some d1, some d0)) ∧
    (∀ (cell : DurationCell) (v : String), cell.dataSortValue = some v →
      ¬(v.length ≥ 32 ∧ hyphenCount v ≥ 4) →
      extract_dates_from_duration_cell cell = duration_text_fallback cell.text) ∧
    (∀ cell : DurationCell, cell.dataSortValue = none →
      extract_dates_from_duration_cell cell = (none, none)) ∧
    extract_dates_from_duration_cell
        { dataSortValue := some "2025-03-10 03:592025-02-20 10:00", text := "" } =
      (some "2025-02-20 10:00", some "2025-03-10 03:59") ∧
    duration_text_fallback "February 20 – March 10, 2025" =
      (some "February 20, 2025", some "March 10, 2025") := by
  refine ⟨?_, ?_, ?_, by decide, by decide⟩
  · intro cell v d0 d1 rest hv h32 h4 hfind
    simp [extract_dates_from_duration_cell, hv, hfind, if_pos (And.intro h32 h4)]
  · intro cell v hv hpre
    simp [extract_dates_from_duration_cell, hv, if_neg hpre]
  · intro cell h
    simp [extract_dates_from_duration_cell, h]

/-- Claim C3 witness: the amended theorem applied to concrete cells. -/
theorem C3_duration_cell_amended_witness :
    extract_dates_from_duration_cell
        { dataSortValue := some "2025-03-10 03:592025-02-20 10:00", text := "" } =
      (some "2025-02-20 10:00", some "2025-03-10 03:59") ∧
    extract_dates_from_duration_cell
        { dataSortValue := some "x-",
          text := "February 20, 2025 – March 10, 2025" } =
      duration_text_fallback "February 20, 2025 – March 10, 2025" ∧
    extract_dates_from_duration_cell { dataSortValue := none, text := "whatever" } =
      (none, none) :=
  ⟨C3_duration_cell_amended.1
      { dataSortValue := some "2025-03-10 03:592025-02-20 10:00", text := "" }
      "2025-03-10 03:592025-02-20 10:00" "2025-03-10 03:59" "2025-02-20 10:00" []
      rfl (by decide) (by decide) (by decide),
   C3_duration_cell_amended.2.1
      { dataSortValue := some "x-", text := "February 20, 2025 – March 10, 2025" }
      "x-" rfl (by decide),
   C3_duration_cell_amended.2.2.1 { dataSortValue := none, text := "whatever" } rfl⟩

/-! ## Claims C2 and C7: reward dictionaries and quantity parsing -/

theorem dictGet_dictSet_self {α : Type} (d : List (String × α)) (k : String) (v : α) :
    dictGet (dictSet d k v) k = some v := by
  induction d with
  | nil => simp [dictSet, dictGet, List.find?]
  | cons p t ih =>
    obtain ⟨k0, v0⟩ := p
    by_cases hk : k0 = k
    · subst hk
      simp [dictSet, dictGet, List.find?]
    · simp only [dictSet, if_neg hk]
      simpa [dictGet, List.find?_cons, hk] using ih

theorem dictGet_dictSet_ne {α : Type} (d : List (String × α)) (k k2 : String) (v : α)
    (hne : k ≠ k2) : dictGet (dictSet d k v) k2 = dictGet d k2 := by
  induction d with
  | nil => simp [dictSet, dictGet, List.find?, fun h => hne h]
  | cons p t ih =>
    obtain ⟨k0, v0⟩ := p
    by_cases hk : k0 = k
    · subst hk
      simp [dictSet, dictGet, List.find?_cons, fun h => hne h]
    · simp only [dictSet, if_neg hk]
      by_cases h2 : k0 = k2
      · simp [dictGet, List.find?_cons, h2]
      · simpa [dictGet, List.find?_cons, h2] using ih

/-- Proof-level combinator: the effect of one keep-if-greater update on a
single key. -/
def maxUpd (o : Option Int) (q : Int) : Option Int :=
  match o with
  | none => some q
  | some old => if q > old then some q else some old

theorem genshin_m1_step_get_none (acc : List (String × Int)) (c : GCard)
    (name : String) (he : gcard_entry c = none) :
    dictGet (genshin_m1_step acc c) name = dictGet acc name := by
  simp [genshin_m1_step, he]

theorem genshin_m1_step_get_entry (acc : List (String × Int)) (c : GCard)
    (n : String) (q : Int) (name : String) (he : gcard_entry c = some (n, q)) :
    dictGet (genshin_m1_step acc c) name =
      if n = name then maxUpd (dictGet acc name) q else dictGet acc name := by
  simp only [genshin_m1_step, he]
  by_cases hn : n = name
  · subst hn
    cases hg : dictGet acc n with
    | none => simp [hg, maxUpd, dictGet_dictSet_self]
    | some old =>
      simp only [hg, maxUpd]
      split_ifs with hq
      · simp [dictGet_dictSet_self]
      · simp [hg]
  · cases hg : dictGet acc n with
    | none => simp [hg, hn, dictGet_dictSet_ne acc n name q hn]
    | some old =>
      simp only [hg]
      split_ifs with hq
      · simp [hn, dictGet_dictSet_ne acc n name q hn]
      · simp [hn]

theorem genshin_m1_get (cards : List GCard) :
    ∀ (acc : List (String × Int)) (name : String),
      dictGet (cards.foldl genshin_m1_step acc) name =
        (genshin_card_quantities name cards).foldl maxUpd (dictGet acc name) := by
  induction cards with
  | nil => intro acc name; rfl
  | cons c t ih =>
    intro acc name
    rw [List.foldl_cons, ih]
    cases he : gcard_entry c with
    | none =>
      have hq : genshin_card_quantities name (c :: t) = genshin_card_quantities name t := by
        simp [genshin_card_quantities, List.filterMap_cons, he]
      rw [hq, genshin_m1_step_get_none acc c name he]
    | some nq =>
      obtain ⟨n, q⟩ := nq
      by_cases hn : n = name
      · subst hn
        have hq : genshin_card_quantities n (c :: t) =
            q :: genshin_card_quantities n t := by
          simp [genshin_card_quantities, List.filterMap_cons, he]
        rw [hq, List.foldl_cons, genshin_m1_step_get_entry acc c n q n he, if_pos rfl]
      · have hq : genshin_card_quantities name (c :: t) =
            genshin_card_quantities name t := by
          simp [genshin_card_quantities, List.filterMap_cons, he, hn]
        rw [hq, genshin_m1_step_get_entry acc c n q name he, if_neg hn]

theorem maxUpd_fold_spec :
    ∀ (l : List Int) (o : Option Int) (q : Int),
      l.foldl maxUpd o = some q →
      (q ∈ l ∨ o = some q) ∧ (∀ x ∈ l, x ≤ q) ∧ (∀ y, o = some y → y ≤ q) := by
  intro l
  induction l with
  | nil =>
    intro o q h
    simp only [List.foldl_nil] at h
    refine ⟨Or.inr h, by simp, fun y hy => ?_⟩
    rw [hy] at h
    simp only [Option.some.injEq] at h
    omega
  | cons x t ih =>
    intro o q h
    rw [List.foldl_cons] at h
    obtain ⟨h1, h2, h3⟩ := ih (maxUpd o x) q h
    have hx : x ≤ q := by
      cases o with
      | none => exact h3 x rfl
      | some old =>
        simp only [maxUpd] at h3
        by_cases hgt : x > old
        · exact h3 x (by rw [if_pos hgt])
        · have := h3 old (by rw [if_neg hgt])
          omega
    refine ⟨?_, ?_, ?_⟩
    · rcases h1 with hq | hq
      · exact Or.inl (List.mem_cons_of_mem x hq)
      · cases o with
        | none =>
          simp only [maxUpd, Option.some.injEq] at hq
          subst hq
          exact Or.inl (List.mem_cons_self x t)
        | some old =>
          simp only [maxUpd] at hq
          split_ifs at hq with hgt
          · simp only [Option.some.injEq] at hq
            subst hq
            exact Or.inl (List.mem_cons_self x t)
          · exact Or.inr hq
    · intro z hz
      rcases List.mem_cons.mp hz with hz | hz
      · subst hz; exact hx
      · exact h2 z hz
    · intro y hy
      subst hy
      have := h3
      cases hgt : decide (x > y) with
      | _ =>
        simp only [maxUpd] at h3
        by_cases hgt2 : x > y
        · have := h3 x (by rw [if_pos hgt2])
          omega
        · exact h3 y (by rw [if_neg hgt2])

theorem maxUpd_fold_isSome :
    ∀ (l : List Int) (o : Option Int), o.isSome → (l.foldl maxUpd o).isSome := by
  intro l
  induction l with
  | nil => intro o h; exact h
  | cons x t ih =>
    intro o h
    rw [List.foldl_cons]
    apply ih
    cases o with
    | none => simp at h
    | some old =>
      simp only [maxUpd]
      split_ifs <;> simp

/-- Claim C2: in the card extractor, a repeated item name retains the
maximum of the parsed quantities (update-if-greater, never additive), so
two Primogem cards with 60 and 600 yield the single entry 600; in the
discord list-output mode a repeated name is summed when both quantities
are numeric (60 and 600 give 660) and string-concatenated otherwise. -/
theorem C2_summary_disambiguation :
    (∀ (cards : List GCard) (name : String) (q : Int),
      dictGet (genshin_m1_cards cards) name = some q →
      q ∈ genshin_card_quantities name cards ∧
        ∀ x ∈ genshin_card_quantities name cards, x ≤ q) ∧
    (∀ (cards : List GCard) (name : String),
      genshin_card_quantities name cards ≠ [] →
      ∃ q, dictGet (genshin_m1_cards cards) name = some q) ∧
    genshin_m1_cards
        [{ link := some { title := "Primogem", imgSrc := none, href := "" },
           spans := [(["card-text"], "60")] },
         { link := some { title := "Primogem", imgSrc := none, href := "" },
           spans := [(["card-text"], "600")] }] = [("Primogem", 600)] ∧
    format_rewards_list_dict ["Primogem:60", "Primogem:600"] =
      [("Primogem", PyVal.i 660)] ∧
    (∀ rs r, format_rewards_list_dict (rs ++ [r]) =
      format_rewards_step (format_rewards_list_dict rs) r) ∧
    (∀ (d : List (String × PyVal)) (name : String) (a b : Int) (r : String),
      parse_reward_string r = (name, PyVal.i b) →
      dictGet d name = some (PyVal.i a) →
      dictGet (format_rewards_step d r) name = some (PyVal.i (a + b))) ∧
    (∀ (d : List (String × PyVal)) (name : String) (v : PyVal) (bs r : String),
      parse_reward_string r = (name, PyVal.s bs) →
      dictGet d name = some v →
      dictGet (format_rewards_step d r) name =
        some (PyVal.s (pyvalStr v ++ ", " ++ bs))) := by
  refine ⟨?_, ?_, by decide, by decide, ?_, ?_, ?_⟩
  · intro cards name q h
    rw [genshin_m1_cards, genshin_m1_get cards [] name] at h
    have h0 : dictGet ([] : List (String × Int)) name = none := rfl
    rw [h0] at h
    obtain ⟨h1, h2, _⟩ := maxUpd_fold_spec _ _ _ h
    rcases h1 with h1 | h1
    · exact ⟨h1, h2⟩
    · simp at h1
  · intro cards name hne
    rw [genshin_m1_cards, genshin_m1_get cards [] name]
    have h0 : dictGet ([] : List (String × Int)) name = none := rfl
    rw [h0]
    cases hq : genshin_card_quantities name cards with
    | nil => exact absurd hq hne
    | cons x t =>
      rw [List.foldl_cons]
      have := maxUpd_fold_isSome t (maxUpd none x) (by simp [maxUpd])
      exact Option.isSome_iff_exists.mp this
  · intro rs r
    rw [format_rewards_list_dict, format_rewards_list_dict, List.foldl_append,
      List.foldl_cons, List.foldl_nil]
  · intro d name a b r hp hg
    simp [format_rewards_step, hp, hg, dictGet_dictSet_self]
  · intro d name v bs r hp hg
    cases v with
    | i a => simp [format_rewards_step, hp, hg, dictGet_dictSet_self, pyvalStr]
    | s as => simp [format_rewards_step, hp, hg, dictGet_dictSet_self, pyvalStr]

/-- Claim C2 witness: the max and sum properties applied at the concrete
Primogem inputs. -/
theorem C2_summary_disambiguation_witness :
    ((600 : Int) ∈ genshin_card_quantities "Primogem"
        [{ link := some { title := "Primogem", imgSrc := none, href := "" },
           spans := [(["card-text"], "60")] },
         { link := some { title := "Primogem", imgSrc := none, href := "" },
           spans := [(["card-text"], "600")] }] ∧
      ∀ x ∈ genshin_card_quantities "Primogem"
        [{ link := some { title := "Primogem", imgSrc := none, href := "" },
           spans := [(["card-text"], "60")] },
         { link := some { title := "Primogem", imgSrc := none, href := "" },
           spans := [(["card-text"], "600")] }], x ≤ (600 : Int)) ∧
    dictGet (format_rewards_step [("Primogem", PyVal.i 60)] "Primogem:600")
        "Primogem" = some (PyVal.i 660) :=
  ⟨C2_summary_disambiguation.1
      [{ link := some { title := "Primogem", imgSrc := none, href := "" },
         spans := [(["card-text"], "60")] },
       { link := some { title := "Primogem", imgSrc := none, href := "" },
         spans := [(["card-text"], "600")] }] "Primogem" 600 (by decide),
   C2_summary_disambiguation.2.2.2.2.2.1 [("Primogem", PyVal.i 60)] "Primogem" 60 600
      "Primogem:600" (by decide) (by decide)⟩

/-- Claim C7 counterexample: parse_quantity does not strip the
multiplication-sign marker, so a quantity written with it falls back to
the default 1 instead of the marked value. -/
theorem C7_counterexample :
    parse_quantity (some "×600") = 1 ∧ parse_quantity (some "×600") ≠ 600 :=
  ⟨by decide, by decide⟩

/-- Claim C7 amended: quantity parsing strips thousands separators and
every ascii x (any position, case-insensitively); the multiplication
sign is not stripped, so such text parses to the default 1; absence of a
parseable integer defaults to 1 — except in the genshin heading-anchored
card scan (Strategy A), where an unparsable quantity text rejects the
entry; the waves table scan keeps its default-1 behavior. -/
theorem C7_quantity_amended :
    parse_quantity (some "x5") = 5 ∧
    parse_quantity (some "X5") = 5 ∧
    parse_quantity (some "1,000") = 1000 ∧
    parse_quantity (some "2x4") = 24 ∧
    parse_quantity (some "×600") = 1 ∧
    parse_quantity none = 1 ∧
    (∀ t : String,
      pyInt (pyStrip (removeChar ',' (removeChar 'x' (pyLower t)))) = none →
      parse_quantity (some t) = 1) ∧
    (∀ (c : GCard) (n t : String), gcard_item_name c = some n → n ≠ "" →
      gcard_qspan c = some t → pyStrip t ≠ "" →
      pyInt (removeChar ',' (pyStrip t)) = none → gcard_entry c = none) ∧
    (∀ (c : GCard) (rest : List GCard), gcard_entry c = none →
      genshin_m1_cards (c :: rest) = genshin_m1_cards rest) ∧
    (∀ (ui : Bool) (rewards : List (String × Int)) (c0 c1 : String) (cs : List String),
      ¬(ui = true ∧ common_ui_elements.contains (pyStrip c0) = true) →
      pyStrip c0 ≠ "" →
      searchFirst reQty (pyStrip c1).data = none →
      waves_m2_row ui rewards ⟨c0 :: c1 :: cs⟩ = dictSet rewards (pyStrip c0) 1) := by
  refine ⟨by decide, by decide, by decide, by decide, by decide, rfl, ?_, ?_, ?_, ?_⟩
  · intro t h
    by_cases ht : t = ""
    · simp [parse_quantity, ht]
    · simp [parse_quantity, ht, h]
  · intro c n t hn hne hq hqt hint
    simp [gcard_entry, hn, hq, hne, hqt, hint]
  · intro c rest h
    simp [genshin_m1_cards, List.foldl_cons, genshin_m1_step, h]
  · intro ui rewards c0 c1 cs hui hname hsearch
    simp only [waves_m2_row]
    rw [if_neg hui, if_pos hname, hsearch]

/-- Claim C7 witness: the amended properties applied at concrete cards,
rows and texts. -/
theorem C7_quantity_amended_witness :
    parse_quantity (some "abc") = 1 ∧
    gcard_entry { link := some { title := "Mora", imgSrc := none, href := "" },
                  spans := [(["card-text"], "abc")] } = none ∧
    genshin_m1_cards
        [{ link := some { title := "Mora", imgSrc := none, href := "" },
           spans := [(["card-text"], "abc")] }] = genshin_m1_cards [] ∧
    waves_m2_row false [] ⟨["Astrite", "no digits"]⟩ = [("Astrite", 1)] := by
  refine ⟨C7_quantity_amended.2.2.2.2.2.2.1 "abc" (by decide),
    C7_quantity_amended.2.2.2.2.2.2.2.1
      { link := some { title := "Mora", imgSrc := none, href := "" },
        spans := [(["card-text"], "abc")] } "Mora" "abc"
      (by decide) (by decide) (by decide) (by decide) (by decide),
    C7_quantity_amended.2.2.2.2.2.2.2.2.1
      { link := some { title := "Mora", imgSrc := none, href := "" },
        spans := [(["card-text"], "abc")] } [] (by decide),
    ?_⟩
  have := C7_quantity_amended.2.2.2.2.2.2.2.2.2 false [] "Astrite" "no digits" []
    (by simp) (by decide) (by decide)
  simpa using this

/-! ## Claim C4: reward-strategy cascade -/

/-- Claim C4: in the bug-fixing variant the plain card scan (Strategy C)
always runs as a final pass merged into whatever the heading scan
(Strategy A) or table scan (Strategy B) produced, with B only running
when A found nothing; the earlier variant runs C only when A and B both
found nothing.  A demonstration page shows an entry that only the card
scan recovers appearing in the fixed variant and missing from the
earlier one although Strategy A succeeded. -/
theorem C4_reward_cascade :
    (∀ p : WavesPage, scrape_rewards_waves_fixed p =
      waves_strategyC_fixed
        (if waves_method1 true p = [] then waves_strategyB true p
         else waves_method1 true p) p) ∧
    (∀ p : WavesPage, waves_method1 false p ≠ [] →
      scrape_rewards_waves_final p = waves_method1 false p) ∧
    (∀ p : WavesPage, waves_method1 false p = [] → waves_strategyB false p ≠ [] →
      scrape_rewards_waves_final p = waves_strategyB false p) ∧
    (∀ p : WavesPage, waves_method1 false p = [] → waves_strategyB false p = [] →
      scrape_rewards_waves_final p = waves_strategyC_final p) ∧
    dictGet (scrape_rewards_waves_fixed waves_demo_page) "Lustrous Tide" = some 5 ∧
    dictGet (scrape_rewards_waves_fixed waves_demo_page) "Astrite" = some 60 ∧
    waves_method1 false waves_demo_page ≠ [] ∧
    dictGet (scrape_rewards_waves_final waves_demo_page) "Lustrous Tide" = none := by
  refine ⟨?_, ?_, ?_, ?_, by decide, by decide, by decide, by decide⟩
  · intro p
    by_cases h : waves_method1 true p = []
    · simp [scrape_rewards_waves_fixed, waves_strategyC_fixed, waves_strategyB, h]
    · simp [scrape_rewards_waves_fixed, waves_strategyC_fixed, h]
  · intro p h
    simp [scrape_rewards_waves_final, h]
  · intro p h1 h2
    rw [waves_strategyB] at h2
    simp [scrape_rewards_waves_final, waves_strategyB, h1, h2]
  · intro p h1 h2
    rw [waves_strategyB] at h2
    simp [scrape_rewards_waves_final, waves_strategyC_final, h1, h2]

/-- Claim C4 witness: each cascade branch exercised on a concrete
page. -/
theorem C4_reward_cascade_witness :
    scrape_rewards_waves_final waves_demo_page = waves_method1 false waves_demo_page ∧
    scrape_rewards_waves_final waves_demo_table_page =
      waves_strategyB false waves_demo_table_page ∧
    scrape_rewards_waves_final waves_demo_card_page =
      waves_strategyC_final waves_demo_card_page ∧
    scrape_rewards_waves_fixed waves_demo_page =
      waves_strategyC_fixed
        (if waves_method1 true waves_demo_page = []
         then waves_strategyB true waves_demo_page
         else waves_method1 true waves_demo_page) waves_demo_page :=
  ⟨C4_reward_cascade.2.1 waves_demo_page (by decide),
   C4_reward_cascade.2.2.1 waves_demo_table_page (by decide) (by decide),
   C4_reward_cascade.2.2.2.1 waves_demo_card_page (by decide) (by decide),
   C4_reward_cascade.1 waves_demo_page⟩

/-! ## Claims C6 and C10: link deduplication and the href denylist -/

theorem genshin_link_step_cases (detail : String → Option GDetail)
    (acc : List GEvent × List String) (link : GLink) :
    genshin_link_step detail acc link = acc ∨
    ∃ h ev, link.href = some h ∧ ¬(acc.2.contains h = true) ∧
      ev.name = pyStrip link.text ∧ ev.name ≠ "" ∧
      ev.link = (if pyStartsWith h "/" then genshin_base ++ h else h) ∧
      genshin_link_step detail acc link = (acc.1 ++ [ev], acc.2 ++ [h]) := by
  cases hh : link.href with
  | none => left; simp [genshin_link_step, hh]
  | some h =>
    by_cases ht : pyStrip link.text = ""
    · left
      simp only [genshin_link_step, hh]
      rw [if_pos ht]
    · by_cases hc : acc.2.contains h = true
      · left
        simp only [genshin_link_step, hh]
        rw [if_neg ht, if_pos hc]
      · right
        cases hd : detail (if pyStartsWith h "/" then genshin_base ++ h else h) with
        | some d =>
          refine ⟨h, { name := pyStrip link.text,
                       link := if pyStartsWith h "/" then genshin_base ++ h else h,
                       start_date := d.start_date, end_date := d.end_date,
                       type := d.type, reward_list := d.reward_list },
                  rfl, hc, rfl, ht, rfl, ?_⟩
          simp only [genshin_link_step, hh]
          rw [if_neg ht, if_neg hc]
          simp [hd]
        | none =>
          refine ⟨h, { name := pyStrip link.text,
                       link := if pyStartsWith h "/" then genshin_base ++ h else h,
                       start_date := "", end_date := "", type := "",
                       reward_list := [] },
                  rfl, hc, rfl, ht, rfl, ?_⟩
          simp only [genshin_link_step, hh]
          rw [if_neg ht, if_neg hc]
          simp [hd]

theorem process_genshin_invariant (detail : String → Option GDetail) :
    ∀ (links : List GLink) (acc : List GEvent × List String),
      acc.2.Nodup → acc.1.length = acc.2.length → (∀ ev ∈ acc.1, ev.name ≠ "") →
      (links.foldl (genshin_link_step detail) acc).2.Nodup ∧
      (links.foldl (genshin_link_step detail) acc).1.length =
        (links.foldl (genshin_link_step detail) acc).2.length ∧
      (∀ ev ∈ (links.foldl (genshin_link_step detail) acc).1, ev.name ≠ "") := by
  intro links
  induction links with
  | nil => intro acc h1 h2 h3; exact ⟨h1, h2, h3⟩
  | cons l ls ih =>
    intro acc h1 h2 h3
    rw [List.foldl_cons]
    rcases genshin_link_step_cases detail acc l with heq | ⟨h, ev, _, hc, _, hn, _, heq⟩
    · rw [heq]; exact ih acc h1 h2 h3
    · rw [heq]
      refine ih _ ?_ ?_ ?_
      · simp only [List.nodup_append, List.nodup_cons, List.nodup_nil]
        refine ⟨h1, by simp, ?_⟩
        intro a ha hb
        simp only [List.mem_singleton] at hb
        subst hb
        exact hc (List.elem_iff.mpr ha)
      · simp [h2]
      · intro e he
        rcases List.mem_append.mp he with he | he
        · exact h3 e he
        · simp only [List.mem_singleton] at he
          subst he
          exact hn

theorem waves_link_step_cases (detail : String → Option WDetail)
    (acc : List WEvent × List String) (link : WLink) :
    waves_link_step detail acc link = acc ∨
    ∃ h, link.href = some h ∧ waves_href_ok h = true ∧ ¬(acc.2.contains h = true) ∧
      ((waves_link_step detail acc link = (acc.1, acc.2 ++ [h])) ∨
       (∃ ev, waves_link_step detail acc link = (acc.1 ++ [ev], acc.2 ++ [h]) ∧
         ev.name = pyStrip link.text ∧ ev.name ≠ "" ∧
         ev.link = (if pyStartsWith h "/wiki/" then waves_base ++ h else h))) := by
  cases hh : link.href with
  | none => left; simp [waves_link_step, hh]
  | some h =>
    by_cases ht : pyStrip link.text = ""
    · left
      simp only [waves_link_step, hh]
      rw [if_pos ht]
    · by_cases hok : waves_href_ok h = true
      · by_cases hc : acc.2.contains h = true
        · left
          simp only [waves_link_step, hh]
          rw [if_neg ht, if_neg (by simp [hok]), if_pos hc]
        · right
          refine ⟨h, rfl, hok, hc, ?_⟩
          cases hd : detail (if pyStartsWith h "/wiki/" then waves_base ++ h else h) with
          | none =>
            left
            simp only [waves_link_step, hh]
            rw [if_neg ht, if_neg (by simp [hok]), if_neg hc]
            simp [hd]
          | some d =>
            right
            refine ⟨{ name := pyStrip link.text,
                      link := if pyStartsWith h "/wiki/" then waves_base ++ h else h,
                      start_date := d.start_date, end_date := d.end_date,
                      type := d.type, rewards := d.rewards }, ?_, rfl, ht, rfl⟩
            simp only [waves_link_step, hh]
            rw [if_neg ht, if_neg (by simp [hok]), if_neg hc]
            simp [hd, ht]
      · left
        simp only [waves_link_step, hh]
        rw [if_neg ht, if_pos hok]

theorem process_waves_membership (detail : String → Option WDetail) :
    ∀ (links : List WLink) (acc : List WEvent × List String)
      (ev : WEvent), ev ∈ (links.foldl (waves_link_step detail) acc).1 →
      ev ∈ acc.1 ∨
      ∃ h, (some h) ∈ links.map WLink.href ∧ waves_href_ok h = true ∧
        ev.name ≠ "" ∧
        ev.link = (if pyStartsWith h "/wiki/" then waves_base ++ h else h) := by
  intro links
  induction links with
  | nil => intro acc ev h; exact Or.inl h
  | cons l ls ih =>
    intro acc ev hm
    rw [List.foldl_cons] at hm
    rcases ih (waves_link_step detail acc l) ev hm with hin | ⟨h, hmem, hok, hn, hl⟩
    · rcases waves_link_step_cases detail acc l with heq | ⟨h, hh, hok, hc, hcase⟩
      · rw [heq] at hin; exact Or.inl hin
      · rcases hcase with heq | ⟨ev0, heq, hn0, hne0, hl0⟩
        · rw [heq] at hin; exact Or.inl hin
        · rw [heq] at hin
          simp only at hin
          rcases List.mem_append.mp hin with hin | hin
          · exact Or.inl hin
          · simp only [List.mem_singleton] at hin
            subst hin
            refine Or.inr ⟨h, ?_, hok, hne0, hl0⟩
            rw [List.map_cons, hh]
            exact List.mem_cons_self _ _
    · refine Or.inr ⟨h, ?_, hok, hn, hl⟩
      rw [List.map_cons]
      exact List.mem_cons_of_mem _ hmem

theorem process_waves_invariant (detail : String → Option WDetail) :
    ∀ (links : List WLink) (acc : List WEvent × List String),
      acc.2.Nodup → (∀ ev ∈ acc.1, ev.name ≠ "") →
      (links.foldl (waves_link_step detail) acc).2.Nodup ∧
      (∀ ev ∈ (links.foldl (waves_link_step detail) acc).1, ev.name ≠ "") := by
  intro links
  induction links with
  | nil => intro acc h1 h2; exact ⟨h1, h2⟩
  | cons l ls ih =>
    intro acc h1 h2
    rw [List.foldl_cons]
    rcases waves_link_step_cases detail acc l with heq | ⟨h, _, _, hc, hcase⟩
    · rw [heq]; exact ih acc h1 h2
    · have hnodup : (acc.2 ++ [h]).Nodup := by
        simp only [List.nodup_append, List.nodup_cons, List.nodup_nil]
        refine ⟨h1, by simp, ?_⟩
        intro a ha hb
        simp only [List.mem_singleton] at hb
        subst hb
        exact hc (List.elem_iff.mpr ha)
      rcases hcase with heq | ⟨ev0, heq, hn0, hne0, hl0⟩
      · rw [heq]
        exact ih _ hnodup h2
      · rw [heq]
        refine ih _ hnodup ?_
        intro e he
        simp only at he
        rcases List.mem_append.mp he with he | he
        · exact h2 e he
        · simp only [List.mem_singleton] at he
          subst he
          exact hne0

/-- Claim C6 counterexample: two links whose distinct raw hrefs resolve
to the same absolute URL are both retained, so deduplication is not by
resolved absolute URL. -/
theorem C6_counterexample :
    ((process_genshin_links
        [{ href := some "/wiki/X", text := "A" },
         { href := some "https://genshin-impact.fandom.com/wiki/X", text := "B" }]
        (fun _ => none)).1.map GEvent.link) =
      ["https://genshin-impact.fandom.com/wiki/X",
       "https://genshin-impact.fandom.com/wiki/X"] ∧
    ((process_genshin_links
        [{ href := some "/wiki/X", text := "A" },
         { href := some "https://genshin-impact.fandom.com/wiki/X", text := "B" }]
        (fun _ => none)).1.map GEvent.name) = ["A", "B"] := by
  exact ⟨by decide, by decide⟩

theorem genshin_link_step_dup (detail : String → Option GDetail)
    (acc : List GEvent × List String) (l : GLink) (h : String)
    (hh : l.href = some h) (hc : h ∈ acc.2) :
    genshin_link_step detail acc l = acc := by
  simp only [genshin_link_step, hh]
  by_cases ht : pyStrip l.text = ""
  · rw [if_pos ht]
  · rw [if_neg ht, if_pos (List.elem_iff.mpr hc)]

theorem waves_link_step_dup (detail : String → Option WDetail)
    (acc : List WEvent × List String) (l : WLink) (h : String)
    (hh : l.href = some h) (hc : h ∈ acc.2) :
    waves_link_step detail acc l = acc := by
  simp only [waves_link_step, hh]
  by_cases ht : pyStrip l.text = ""
  · rw [if_pos ht]
  · by_cases hok : waves_href_ok h = true
    · rw [if_neg ht, if_neg (by simp [hok]), if_pos (List.elem_iff.mpr hc)]
    · rw [if_neg ht, if_pos hok]

theorem genshin_processed_mono (detail : String → Option GDetail) :
    ∀ (links : List GLink) (acc : List GEvent × List String) (h : String),
      h ∈ acc.2 → h ∈ (links.foldl (genshin_link_step detail) acc).2 := by
  intro links
  induction links with
  | nil => intro acc h hm; exact hm
  | cons l ls ih =>
    intro acc h hm
    rw [List.foldl_cons]
    rcases genshin_link_step_cases detail acc l with heq | ⟨h0, ev, _, _, _, _, _, heq⟩
    · rw [heq]; exact ih acc h hm
    · rw [heq]
      exact ih _ h (List.mem_append_left _ hm)

theorem waves_processed_mono (detail : String → Option WDetail) :
    ∀ (links : List WLink) (acc : List WEvent × List String) (h : String),
      h ∈ acc.2 → h ∈ (links.foldl (waves_link_step detail) acc).2 := by
  intro links
  induction links with
  | nil => intro acc h hm; exact hm
  | cons l ls ih =>
    intro acc h hm
    rw [List.foldl_cons]
    rcases waves_link_step_cases detail acc l with heq | ⟨h0, _, _, _, hcase⟩
    · rw [heq]; exact ih acc h hm
    · rcases hcase with heq | ⟨ev0, heq, _, _, _⟩
      · rw [heq]
        exact ih _ h (List.mem_append_left _ hm)
      · rw [heq]
        exact ih _ h (List.mem_append_left _ hm)

/-- Claim C6 amended: deduplication keys on the original href string:
among links with identical raw href only the first-seen contributes
(any later link carrying an already-processed href changes neither the
event list nor the processed set, so the record built from the first
occurrence is the one retained), while links whose different hrefs
resolve to the same absolute URL are all retained; links with no href
or empty visible text are skipped entirely. -/
theorem C6_dedup_amended :
    (∀ (links : List GLink) (detail : String → Option GDetail),
      (process_genshin_links links detail).2.Nodup ∧
      (process_genshin_links links detail).1.length =
        (process_genshin_links links detail).2.length ∧
      (∀ ev ∈ (process_genshin_links links detail).1, ev.name ≠ "")) ∧
    (∀ (l : GLink) (rest : List GLink) (detail : String → Option GDetail),
      l.href = none ∨ pyStrip l.text = "" →
      process_genshin_links (l :: rest) detail = process_genshin_links rest detail) ∧
    (∀ (links1 : List GLink) (l : GLink) (links2 : List GLink)
        (detail : String → Option GDetail) (h : String),
      l.href = some h → h ∈ (process_genshin_links links1 detail).2 →
      process_genshin_links (links1 ++ l :: links2) detail =
        process_genshin_links (links1 ++ links2) detail) ∧
    ((process_genshin_links
        [{ href := some "/wiki/X", text := "A" },
         { href := some "/wiki/X", text := "B" }]
        (fun _ => none)).1.map GEvent.name) = ["A"] ∧
    (∀ (links : List WLink) (detail : String → Option WDetail),
      (process_waves_links links detail).2.Nodup ∧
      (∀ ev ∈ (process_waves_links links detail).1, ev.name ≠ "")) ∧
    (∀ (l : WLink) (rest : List WLink) (detail : String → Option WDetail),
      l.href = none ∨ pyStrip l.text = "" →
      process_waves_links (l :: rest) detail = process_waves_links rest detail) ∧
    (∀ (links1 : List WLink) (l : WLink) (links2 : List WLink)
        (detail : String → Option WDetail) (h : String),
      l.href = some h → h ∈ (process_waves_links links1 detail).2 →
      process_waves_links (links1 ++ l :: links2) detail =
        process_waves_links (links1 ++ links2) detail) ∧
    ((process_waves_links
        [{ href := some "/wiki/X", text := "A" },
         { href := some "/wiki/X", text := "B" }]
        (fun _ => some { start_date := "", end_date := "", type := "t",
                         rewards := [] })).1.map WEvent.name) = ["A"] := by
  refine ⟨?_, ?_, ?_, by decide, ?_, ?_, ?_, by decide⟩
  · intro links detail
    exact process_genshin_invariant detail links ([], []) (by simp) rfl (by simp)
  · intro l rest detail hskip
    have hstep : genshin_link_step detail ([], []) l = ([], []) := by
      rcases hskip with hh | ht
      · simp [genshin_link_step, hh]
      · cases hh : l.href <;> simp [genshin_link_step, hh, ht]
    simp [process_genshin_links, List.foldl_cons, hstep]
  · intro links1 l links2 detail h hh hmem
    simp only [process_genshin_links] at hmem ⊢
    rw [List.foldl_append, List.foldl_append, List.foldl_cons,
      genshin_link_step_dup detail _ l h hh hmem]
  · intro links detail
    exact process_waves_invariant detail links ([], []) (by simp) (by simp)
  · intro l rest detail hskip
    have hstep : waves_link_step detail ([], []) l = ([], []) := by
      rcases hskip with hh | ht
      · simp [waves_link_step, hh]
      · cases hh : l.href <;> simp [waves_link_step, hh, ht]
    simp [process_waves_links, List.foldl_cons, hstep]
  · intro links1 l links2 detail h hh hmem
    simp only [process_waves_links] at hmem ⊢
    rw [List.foldl_append, List.foldl_append, List.foldl_cons,
      waves_link_step_dup detail _ l h hh hmem]

/-- Claim C6 witness: the amended dedup behavior at concrete link lists:
a later link repeating an already-processed href is ignored wholesale
(so the first-seen record survives), and no-href or empty-text links
are dropped. -/
theorem C6_dedup_amended_witness :
    ((process_genshin_links
        [{ href := some "/wiki/X", text := "A" },
         { href := some "/wiki/X", text := "B" },
         { href := some "/wiki/Y", text := "  " }]
        (fun _ => none)).2.Nodup ∧
      (process_genshin_links
        [{ href := some "/wiki/X", text := "A" },
         { href := some "/wiki/X", text := "B" },
         { href := some "/wiki/Y", text := "  " }]
        (fun _ => none)).1.length =
        (process_genshin_links
          [{ href := some "/wiki/X", text := "A" },
           { href := some "/wiki/X", text := "B" },
           { href := some "/wiki/Y", text := "  " }]
          (fun _ => none)).2.length ∧
      (∀ ev ∈ (process_genshin_links
          [{ href := some "/wiki/X", text := "A" },
           { href := some "/wiki/X", text := "B" },
           { href := some "/wiki/Y", text := "  " }]
          (fun _ => none)).1, ev.name ≠ "")) ∧
    process_genshin_links [{ href := none, text := "A" }] (fun _ => none) =
      process_genshin_links [] (fun _ => none) ∧
    process_genshin_links
        ([{ href := some "/wiki/X", text := "A" }] ++
          { href := some "/wiki/X", text := "B" } ::
            [{ href := some "/wiki/Y", text := "C" }]) (fun _ => none) =
      process_genshin_links
        ([{ href := some "/wiki/X", text := "A" }] ++
          [{ href := some "/wiki/Y", text := "C" }]) (fun _ => none) ∧
    process_waves_links [{ href := some "/wiki/X", text := " " }] (fun _ => none) =
      process_waves_links [] (fun _ => none) ∧
    process_waves_links
        ([{ href := some "/wiki/X", text := "A" }] ++
          { href := some "/wiki/X", text := "B" } :: []) (fun _ => none) =
      process_waves_links ([{ href := some "/wiki/X", text := "A" }] ++ [])
        (fun _ => none) :=
  ⟨C6_dedup_amended.1
      [{ href := some "/wiki/X", text := "A" },
       { href := some "/wiki/X", text := "B" },
       { href := some "/wiki/Y", text := "  " }] (fun _ => none),
   C6_dedup_amended.2.1 { href := none, text := "A" } [] (fun _ => none)
      (Or.inl rfl),
   C6_dedup_amended.2.2.1 [{ href := some "/wiki/X", text := "A" }]
      { href := some "/wiki/X", text := "B" }
      [{ href := some "/wiki/Y", text := "C" }] (fun _ => none) "/wiki/X"
      rfl (by decide),
   C6_dedup_amended.2.2.2.2.2.1 { href := some "/wiki/X", text := " " } []
      (fun _ => none) (Or.inr (by decide)),
   C6_dedup_amended.2.2.2.2.2.2.1 [{ href := some "/wiki/X", text := "A" }]
      { href := some "/wiki/X", text := "B" } [] (fun _ => none) "/wiki/X"
      rfl (by decide)⟩

/-- Claim C10: every event emitted by the waves extractor arises from a
link whose original href contains /wiki/ and none of Category:,
Template:, Version/; a link failing the filter is silently dropped
before any fetch. -/
theorem C10_waves_link_filter :
    (∀ (links : List WLink) (detail : String → Option WDetail) (ev : WEvent),
      ev ∈ (process_waves_links links detail).1 →
      ∃ h, (some h) ∈ links.map WLink.href ∧
        pyContains h "/wiki/" = true ∧ pyContains h "Category:" = false ∧
        pyContains h "Template:" = false ∧ pyContains h "Version/" = false ∧
        ev.link = (if pyStartsWith h "/wiki/" then waves_base ++ h else h)) ∧
    (∀ detail : String → Option WDetail,
      process_waves_links [{ href := some "/wiki/Category:Events", text := "Cats" }]
        detail = ([], [])) ∧
    (∀ detail : String → Option WDetail,
      process_waves_links [{ href := some "/event", text := "E" }] detail =
        ([], [])) := by
  refine ⟨?_, ?_, ?_⟩
  · intro links detail ev hm
    rcases process_waves_membership detail links ([], []) ev hm with hin | ⟨h, hmem, hok, hn, hl⟩
    · simp at hin
    · simp only [waves_href_ok, Bool.and_eq_true, Bool.not_eq_true'] at hok
      exact ⟨h, hmem, hok.1.1.1, hok.1.1.2, hok.1.2, hok.2, hl⟩
  · intro detail
    have hstep : waves_link_step detail ([], [])
        { href := some "/wiki/Category:Events", text := "Cats" } = ([], []) := by
      simp only [waves_link_step]
      rw [if_neg (by decide), if_pos (by decide)]
    simp [process_waves_links, List.foldl_cons, hstep]
  · intro detail
    have hstep : waves_link_step detail ([], [])
        { href := some "/event", text := "E" } = ([], []) := by
      simp only [waves_link_step]
      rw [if_neg (by decide), if_pos (by decide)]
    simp [process_waves_links, List.foldl_cons, hstep]

/-- Claim C10 witness: a concrete retained event and its originating
href. -/
theorem C10_waves_link_filter_witness :
    ∃ h, (some h) ∈ ([{ href := some "/wiki/Event_A", text := "A" }] :
        List WLink).map WLink.href ∧
      pyContains h "/wiki/" = true ∧ pyContains h "Category:" = false ∧
      pyContains h "Template:" = false ∧ pyContains h "Version/" = false ∧
      ({ name := "A", link := "https://wutheringwaves.fandom.com/wiki/Event_A",
         start_date := "", end_date := "", type := "In-Game Event",
         rewards := [] } : WEvent).link =
        (if pyStartsWith h "/wiki/" then waves_base ++ h else h) :=
  C10_waves_link_filter.1 [{ href := some "/wiki/Event_A", text := "A" }]
    (fun _ => some { start_date := "", end_date := "", type := "In-Game Event",
                     rewards := [] })
    { name := "A", link := "https://wutheringwaves.fandom.com/wiki/Event_A",
      start_date := "", end_date := "", type := "In-Game Event", rewards := [] }
    (by decide)

end EventScraper
